import Mathlib

/-!
Verification of the structured-generation protocol of `src/core/ollama_client.py`
(class `OllamaClient`: `generate`, `structured_generation`, `is_available`,
`list_models`).

Python strings are modelled as `List Char` (`Str`).  The external collaborators
are modelled as follows:

* the HTTP transport (`requests.post` / `requests.get`) is an oracle
  `post : Nat → Payload → PostOutcome` giving, for each attempt index, either a
  `requests.exceptions.RequestException` during the request, or a response with
  a status code and the result of `response.json()` (`none` when the body is
  not parseable JSON, in which case `response.json()` raises
  `requests.exceptions.JSONDecodeError`);
* `json.loads` is embedded as the executable parser `parseJson` below (a
  faithful subset of JSON: objects, arrays, strings without escape sequences,
  integers, booleans, null; surrounding whitespace tolerated, empty input and
  any trailing garbage rejected — exactly the aspects the code under
  verification relies on);
* `print` side effects are recorded as a `List PrintEvent` log;
* wall-clock timing (`time.time()`) is not modelled; the latency print is kept
  as an event without its numeric payload.
-/

/-- Python strings, modelled as lists of characters. -/
abbrev Str := List Char

/-- The backtick character, written via its code point. -/
def btick : Char := Char.ofNat 96

/-- JSON whitespace, which is also what `str.strip()` removes on the inputs in
scope (space, tab, newline, carriage return). -/
def isWsChar (c : Char) : Bool := c = ' ' || c = '\t' || c = '\n' || c = '\r'

/-- Skip leading whitespace, as `json.loads` does before and after a value. -/
def skipWs (cs : Str) : Str := cs.dropWhile isWsChar

/-- Model of Python `str.strip()`: drop whitespace from both ends. -/
def stripChars (cs : Str) : Str :=
  (((cs.dropWhile isWsChar).reverse.dropWhile isWsChar)).reverse

/-- Model of Python `str.split(sep)` (for non-empty `sep`): scan left to
right, cutting at each non-overlapping occurrence of `sep`.  Fuel-based so
that the kernel can evaluate it; `splitOnL` supplies sufficient fuel. -/
def splitGo (fuel : Nat) (sep : Str) (cs : Str) (acc : Str) : List Str :=
  match fuel with
  | 0 => [acc.reverse ++ cs]
  | f + 1 =>
    match cs with
    | [] => [acc.reverse]
    | c :: rest =>
      if sep ≠ [] ∧ sep.isPrefixOf (c :: rest) = true then
        acc.reverse :: splitGo f sep (List.drop sep.length (c :: rest)) []
      else
        splitGo f sep rest (c :: acc)

/-- Model of Python `str.split(sep)` for non-empty `sep`. -/
def splitOnL (sep cs : Str) : List Str := splitGo (cs.length + 1) sep cs []

/-- Python values produced by `json.loads`. -/
inductive Json where
  | null : Json
  | bool (b : Bool) : Json
  | num (n : Int) : Json
  | str (s : Str) : Json
  | arr (elems : List Json) : Json
  | obj (members : List (Str × Json)) : Json

/-- First-match lookup in a parsed JSON object, modelling `dict.get`. -/
def jget (k : Str) : List (Str × Json) → Option Json
  | [] => none
  | (k', v) :: t => if k' = k then some v else jget k t

/-- Longest prefix of decimal digits, and the rest. -/
def takeDigits : Str → (Str × Str)
  | [] => ([], [])
  | c :: rest =>
    if c.isDigit then
      let (ds, r) := takeDigits rest
      (c :: ds, r)
    else ([], c :: rest)

/-- Decimal digits to a natural number. -/
def digitsToNat (ds : Str) : Nat :=
  ds.foldl (fun acc c => acc * 10 + (c.toNat - 48)) 0

/-- Body of a JSON string after the opening quote: everything up to the next
quote (escape sequences are outside the modelled subset). -/
def parseStrBody : Str → Option (Str × Str)
  | [] => none
  | c :: rest =>
    if c = '"' then some ([], rest)
    else
      match parseStrBody rest with
      | some (s, r) => some (c :: s, r)
      | none => none

/-- Characters that can open a JSON value. -/
def isOpener (c : Char) : Bool :=
  c = '{' || c = '[' || c = '"' || c = 't' || c = 'f' || c = 'n' || c = '-' || c.isDigit

/-- Characters that can end the text of a JSON value. -/
def isCloser (c : Char) : Bool :=
  c = '}' || c = ']' || c = '"' || c = 'e' || c = 'l' || c.isDigit

mutual

/-- Recursive JSON value parser (fuel-based, kernel-evaluable). -/
def parseVal : Nat → Str → Option (Json × Str)
  | 0, _ => none
  | fuel + 1, cs =>
    match skipWs cs with
    | [] => none
    | c :: rest =>
      if c = '{' then
        match skipWs rest with
        | '}' :: r2 => some (.obj [], r2)
        | _ => parseMembers fuel rest []
      else if c = '[' then
        match skipWs rest with
        | ']' :: r2 => some (.arr [], r2)
        | _ => parseElems fuel rest []
      else if c = '"' then
        match parseStrBody rest with
        | some (s, r) => some (.str s, r)
        | none => none
      else if c = 't' then
        match rest with
        | 'r' :: 'u' :: 'e' :: r => some (.bool true, r)
        | _ => none
      else if c = 'f' then
        match rest with
        | 'a' :: 'l' :: 's' :: 'e' :: r => some (.bool false, r)
        | _ => none
      else if c = 'n' then
        match rest with
        | 'u' :: 'l' :: 'l' :: r => some (.null, r)
        | _ => none
      else if c = '-' then
        match takeDigits rest with
        | ([], _) => none
        | (d :: ds, r) => some (.num (-(digitsToNat (d :: ds) : Int)), r)
      else if c.isDigit then
        match takeDigits (c :: rest) with
        | ([], _) => none
        | (d :: ds, r) => some (.num ((digitsToNat (d :: ds) : Int)), r)
      else none

/-- Elements of a JSON array after the opening bracket (non-empty case). -/
def parseElems : Nat → Str → List Json → Option (Json × Str)
  | 0, _, _ => none
  | fuel + 1, cs, acc =>
    match parseVal fuel cs with
    | some (v, r) =>
      match skipWs r with
      | ',' :: r2 => parseElems fuel r2 (v :: acc)
      | ']' :: r2 => some (.arr (v :: acc).reverse, r2)
      | _ => none
    | none => none

/-- Members of a JSON object after the opening brace (non-empty case). -/
def parseMembers : Nat → Str → List (Str × Json) → Option (Json × Str)
  | 0, _, _ => none
  | fuel + 1, cs, acc =>
    match skipWs cs with
    | '"' :: r =>
      match parseStrBody r with
      | some (k, r1) =>
        match skipWs r1 with
        | ':' :: r2 =>
          match parseVal fuel r2 with
          | some (v, r3) =>
            match skipWs r3 with
            | ',' :: r4 => parseMembers fuel r4 ((k, v) :: acc)
            | '}' :: r4 => some (.obj ((k, v) :: acc).reverse, r4)
            | _ => none
          | none => none
        | _ => none
      | none => none
    | _ => none

end

/-- Embedding of `json.loads`: parse one JSON value, allowing surrounding
whitespace and nothing else; any other input raises `json.JSONDecodeError`
(modelled as `none`). -/
def parseJson (cs : Str) : Option Json :=
  match parseVal (cs.length + 1) cs with
  | some (v, rest) => if skipWs rest = [] then some v else none
  | none => none

mutual

/-- Serializer embedding `json.dumps(·, indent=2)`; used only to build the
prompt text, so only its existence (a fixed function of the schema) matters
to the claims. -/
def dumpsV (ind : Nat) : Json → Str
  | .null => ("null").toList
  | .bool true => ("true").toList
  | .bool false => ("false").toList
  | .num n => (toString n).toList
  | .str s => '"' :: s ++ ['"']
  | .arr [] => ("[]").toList
  | .arr (x :: xs) =>
    '[' :: '\n' :: dumpsL (ind + 2) (x :: xs) ++
      '\n' :: List.replicate ind ' ' ++ [']']
  | .obj [] => ("\x7b\x7d").toList
  | .obj (m :: ms) =>
    '{' :: '\n' :: dumpsM (ind + 2) (m :: ms) ++
      '\n' :: List.replicate ind ' ' ++ ['}']

/-- Comma-and-newline separated indented array elements. -/
def dumpsL (ind : Nat) : List Json → Str
  | [] => []
  | [x] => List.replicate ind ' ' ++ dumpsV ind x
  | x :: y :: t =>
    List.replicate ind ' ' ++ dumpsV ind x ++ (",\n").toList ++ dumpsL ind (y :: t)

/-- Comma-and-newline separated indented object members. -/
def dumpsM (ind : Nat) : List (Str × Json) → Str
  | [] => []
  | [kv] => List.replicate ind ' ' ++ '"' :: kv.1 ++ ("\": ").toList ++ dumpsV ind kv.2
  | kv :: kv2 :: t =>
    List.replicate ind ' ' ++ '"' :: kv.1 ++ ("\": ").toList ++ dumpsV ind kv.2 ++
      (",\n").toList ++ dumpsM ind (kv2 :: t)

end

/-- Embedding of `json.dumps(output_format, indent=2)`. -/
def jsonDumps (j : Json) : Str := dumpsV 0 j

/-- Python exceptions relevant to this module.  `reqExn` stands for a
`requests.exceptions.RequestException` that is *not* a
`json.JSONDecodeError` (connection errors, timeouts, `HTTPError` from
`raise_for_status`).  `reqJsonError` is `requests.exceptions.JSONDecodeError`
raised by `response.json()`, which subclasses both `RequestException` and
`json.JSONDecodeError`.  `jsonError doc` is a plain `json.JSONDecodeError`
from `json.loads(doc)`, carrying the document it failed on.  `attrError`
stands for the uncaught exception (`AttributeError`/`TypeError`) raised when
a response body has a shape the code does not expect. -/
inductive PyExn where
  | reqExn : PyExn
  | reqJsonError : PyExn
  | jsonError (doc : Str) : PyExn
  | attrError : PyExn
deriving DecidableEq

/-- Is the exception caught by `except json.JSONDecodeError` in
`structured_generation`?  (`reqJsonError` is, by multiple inheritance.) -/
def isJsonDecodeExn : PyExn → Bool
  | .jsonError _ => true
  | .reqJsonError => true
  | _ => false

/-- Outcome of one HTTP request, as seen through `requests`: either a
`RequestException` during the request itself, or a response carrying a status
code and the result of `response.json()` (`none` when the body is not valid
JSON, making `response.json()` raise). -/
inductive PostOutcome where
  | exn : PostOutcome
  | resp (status : Nat) (body : Option Json) : PostOutcome

/-- The request payload built by `OllamaClient.generate`.  `system_prompt` is
`none` when the field is absent from the dict (Python adds it only when the
argument is truthy, i.e. a non-empty string). -/
structure Payload where
  model : Str
  prompt : Str
  temperature : ℚ
  max_tokens : Nat
  stream : Bool
  system_prompt : Option Str

/-- Default temperature `0.2` of `generate`. -/
def defaultTemperature : ℚ := 1 / 5

/-- Default `max_tokens` of `generate`. -/
def defaultMaxTokens : Nat := 2048

/-- Payload construction in `generate` (lines 28–37): base fields plus the
`system_prompt` field when the argument is truthy. -/
def mkPayload (model prompt : Str) (system_prompt : Option Str)
    (temperature : ℚ) (max_tokens : Nat) : Payload :=
  { model := model
    prompt := prompt
    temperature := temperature
    max_tokens := max_tokens
    stream := false
    system_prompt :=
      match system_prompt with
      | some s => if s = [] then none else some s
      | none => none }

/-- Diagnostic `print` lines, as events (timing payloads omitted). -/
inductive PrintEvent where
  | llmCompleted : PrintEvent
  | commError : PrintEvent
  | failedParseMsg (attempts : Nat) (doc : Str) : PrintEvent
  | rawResponseMsg (raw : Option Str) : PrintEvent
  | retryMsg (attempt : Nat) : PrintEvent
  | listModelsError : PrintEvent
deriving DecidableEq

/-- Result of one `generate` call: the returned text or raised exception,
plus the printed diagnostics. -/
structure GenOut where
  res : Except PyExn Str
  log : List PrintEvent

/-- Embedding of `OllamaClient.generate` (lines 17–51).  Builds the payload,
posts it, checks the status (`raise_for_status` raises `HTTPError` exactly on
4xx/5xx), parses the body, prints the latency line, and extracts the
`response` field with `""` as default.  Any `RequestException` is printed and
re-raised.  A body that is not a JSON object makes `result.get` raise an
uncaught `AttributeError` (after the latency print); a `response` field that
is not a string is modelled as the `AttributeError` the caller's `.strip()`
would raise. -/
def generate (post1 : Payload → PostOutcome) (model prompt : Str)
    (system_prompt : Option Str) (temperature : ℚ) (max_tokens : Nat) : GenOut :=
  let payload := mkPayload model prompt system_prompt temperature max_tokens
  match post1 payload with
  | .exn => { res := .error .reqExn, log := [.commError] }
  | .resp status body =>
    if 400 ≤ status ∧ status < 600 then { res := .error .reqExn, log := [.commError] }
    else
      match body with
      | none => { res := .error .reqJsonError, log := [.commError] }
      | some (.obj kvs) =>
        match jget ("response").toList kvs with
        | some (.str s) => { res := .ok s, log := [.llmCompleted] }
        | some _ => { res := .error .attrError, log := [.llmCompleted] }
        | none => { res := .ok [], log := [.llmCompleted] }
      | some _ => { res := .error .attrError, log := [.llmCompleted] }

/-- The opening fence marker `"```json"`. -/
def fenceJson : Str := ("```json").toList

/-- The closing fence marker `"```"`. -/
def fenceMark : Str := ("```").toList

/-- The markdown-fence repair of `structured_generation` (lines 82–85), applied
to the stripped response: if it starts with the JSON fence opener, split on
that marker and keep segment 1; if the result ends with a fence, split on the
fence and keep segment 0. -/
def stripFences (j : Str) : Str :=
  let j1 := if fenceJson.isPrefixOf j then (splitOnL fenceJson j).getD 1 [] else j
  let j2 := if fenceMark.isSuffixOf j1 then (splitOnL fenceMark j1).getD 0 [] else j1
  j2

/-- The full text transformation applied to a raw response before
`json.loads`: `response.strip()`, fence repair, and the final `.strip()`
(lines 79–87). -/
def cleanResponse (response : Str) : Str :=
  stripChars (stripFences (stripChars response))

/-- How a `structured_generation` call ends: `ok v` is `return result`
(note Python returns `None` when `v` is `Json.null`), `noneReturn` is the
implicit `None` when the loop body never runs, `raised e` is an uncaught
exception. -/
inductive SGOutcome where
  | ok (v : Json) : SGOutcome
  | noneReturn : SGOutcome
  | raised (e : PyExn) : SGOutcome

/-- Observable result of `structured_generation`: final outcome, the payloads
posted (one per transport call, in order), and the printed diagnostics. -/
structure SGResult where
  outcome : SGOutcome
  trace : List Payload
  prints : List PrintEvent

/-- The retry loop of `structured_generation` (lines 75–94).  `remaining`
counts the loop iterations still available (initially `max_attempts`), so the
current attempt index is `maxA - remaining`; `lastResponse` is the Python
`response` variable (updated only when `generate` returns).  Each iteration
calls `generate`; a raised exception caught by `except json.JSONDecodeError`
(including `requests`' bodily `JSONDecodeError` by multiple inheritance) is
retried, or re-raised with diagnostics on the final attempt; any other
exception propagates immediately.  On a returned text, the cleaned text is
parsed: success returns at once, failure retries or re-raises on the final
attempt, printing the error and the raw `response` variable. -/
def sgLoop (post : Nat → Payload → PostOutcome) (model fullPrompt sysPrompt : Str)
    (maxA : Nat) : Nat → Option Str → SGResult
  | 0, _ => { outcome := .noneReturn, trace := [], prints := [] }
  | r + 1, lastResponse =>
    let attempt := maxA - (r + 1)
    let payload := mkPayload model fullPrompt (some sysPrompt) defaultTemperature defaultMaxTokens
    let g := generate (post attempt) model fullPrompt (some sysPrompt) defaultTemperature defaultMaxTokens
    match g.res with
    | .error e =>
      if isJsonDecodeExn e then
        if r = 0 then
          { outcome := .raised e, trace := [payload],
            prints := g.log ++ [.failedParseMsg maxA [], .rawResponseMsg lastResponse] }
        else
          let rec1 := sgLoop post model fullPrompt sysPrompt maxA r lastResponse
          { outcome := rec1.outcome, trace := payload :: rec1.trace,
            prints := g.log ++ .retryMsg attempt :: rec1.prints }
      else { outcome := .raised e, trace := [payload], prints := g.log }
    | .ok t =>
      match parseJson (cleanResponse t) with
      | some v => { outcome := .ok v, trace := [payload], prints := g.log }
      | none =>
        if r = 0 then
          { outcome := .raised (.jsonError (cleanResponse t)), trace := [payload],
            prints := g.log ++ [.failedParseMsg maxA (cleanResponse t), .rawResponseMsg (some t)] }
        else
          let rec1 := sgLoop post model fullPrompt sysPrompt maxA r (some t)
          { outcome := rec1.outcome, trace := payload :: rec1.trace,
            prints := g.log ++ .retryMsg attempt :: rec1.prints }

/-- The default system prompt substituted when none is supplied (lines
62–66; note the missing space of the Python implicit concatenation). -/
def defaultSystemPrompt : Str :=
  ("You are a code analysis assistant. Analyze the code and provide structured output" ++
    "according to the requested format. Be precise and thorough.").toList

/-- The fixed format-instruction suffix (lines 68–71). -/
def formatInstructions (output_format : Json) : Str :=
  ("Your response should be a valid JSON that confirm to this structure: ").toList ++
    jsonDumps output_format ++ ("\n").toList ++
    ("Do not include any explanations, only output the JSON object").toList

/-- The combined prompt of line 73. -/
def sgFullPrompt (prompt : Str) (output_format : Json) : Str :=
  prompt ++ ("\n\n").toList ++ formatInstructions output_format

/-- Embedding of `OllamaClient.structured_generation` (lines 53–94). -/
def structuredGeneration (post : Nat → Payload → PostOutcome) (model prompt : Str)
    (output_format : Json) (system_prompt : Option Str) (max_attempts : Nat) : SGResult :=
  let sys := system_prompt.getD defaultSystemPrompt
  sgLoop post model (sgFullPrompt prompt output_format) sys max_attempts max_attempts none

/-- The payload every attempt of a `structured_generation` call posts. -/
def sgPayload (model prompt : Str) (output_format : Json) (system_prompt : Option Str) : Payload :=
  mkPayload model (sgFullPrompt prompt output_format)
    (some (system_prompt.getD defaultSystemPrompt)) defaultTemperature defaultMaxTokens

/-- What `generate` returns on attempt `i` of a `structured_generation` call
(the response text, or the exception raised). -/
def genAt (post : Nat → Payload → PostOutcome) (model prompt : Str)
    (output_format : Json) (system_prompt : Option Str) (i : Nat) : Except PyExn Str :=
  (generate (post i) model (sgFullPrompt prompt output_format)
    (some (system_prompt.getD defaultSystemPrompt)) defaultTemperature defaultMaxTokens).res

/-- Embedding of `OllamaClient.is_available` (lines 96–102): `GET /api/tags`,
return `status_code == 200`; any `RequestException` yields `false`. -/
def isAvailable (probe : PostOutcome) : Bool :=
  match probe with
  | .exn => false
  | .resp status _ => status == 200

/-- Embedding of `OllamaClient.list_models` (lines 104–113): `GET /api/tags`,
`raise_for_status`, parse the body, read `models` (default `[]`), and return
`[model.get("name") for model in models]`.  Any `RequestException` (connection
failure, 4xx/5xx `HTTPError`, body `JSONDecodeError`) is caught and yields
`[]`.  Iterating a non-list `models` value or calling `.get` on a non-dict
element raises an uncaught exception (`attrError`); iterating an empty dict or
empty string yields zero iterations, hence `[]`. -/
def listModels (probe : PostOutcome) : Except PyExn (List (Option Json)) :=
  match probe with
  | .exn => .ok []
  | .resp status body =>
    if 400 ≤ status ∧ status < 600 then .ok []
    else
      match body with
      | none => .ok []
      | some (.obj kvs) =>
        match jget ("models").toList kvs with
        | none => .ok []
        | some (.arr ds) =>
          let step := fun (d : Json) =>
            match d with
            | .obj mkvs => Except.ok (jget ("name").toList mkvs)
            | _ => Except.error PyExn.attrError
          ds.mapM step
        | some (.obj []) => .ok []
        | some (.str []) => .ok []
        | some _ => .error .attrError
      | some _ => .error .attrError

/-! ### List helper lemmas -/

theorem isPrefixOf_iff_ex (p l : Str) : p.isPrefixOf l = true ↔ ∃ t, l = p ++ t := by
  induction p generalizing l with
  | nil => simp [List.isPrefixOf]
  | cons a as ih =>
    cases l with
    | nil => simp [List.isPrefixOf]
    | cons b bs =>
      simp only [List.isPrefixOf, Bool.and_eq_true, beq_iff_eq, ih bs, List.cons_append,
        List.cons.injEq]
      constructor
      · rintro ⟨rfl, t, rfl⟩; exact ⟨t, rfl, rfl⟩
      · rintro ⟨t, rfl, rfl⟩; exact ⟨rfl, t, rfl⟩

theorem isSuffixOf_iff_ex (p l : Str) : p.isSuffixOf l = true ↔ ∃ t, l = t ++ p := by
  simp only [List.isSuffixOf, isPrefixOf_iff_ex]
  constructor
  · rintro ⟨t, ht⟩
    refine ⟨t.reverse, ?_⟩
    have := congrArg List.reverse ht
    simpa using this
  · rintro ⟨t, rfl⟩
    exact ⟨t.reverse, by simp⟩

theorem getLastQ_append_right (l₁ l₂ : Str) (h : l₂ ≠ []) :
    (l₁ ++ l₂).getLast? = l₂.getLast? := by
  rw [← List.head?_reverse, ← List.head?_reverse, List.reverse_append]
  cases hr : l₂.reverse with
  | nil => exact absurd (by simpa using hr) h
  | cons a t => simp

theorem getLastQ_mem (l : Str) (c : Char) (h : l.getLast? = some c) : c ∈ l := by
  rw [← List.head?_reverse] at h
  have : c ∈ l.reverse := by
    cases hr : l.reverse with
    | nil => rw [hr] at h; simp at h
    | cons a t => rw [hr] at h; simp at h; simp [hr, h]
  simpa using this

theorem dropWhile_head_false (p : Char → Bool) (l : Str) (c : Char) (t : Str)
    (h : l.dropWhile p = c :: t) : p c = false := by
  induction l with
  | nil => simp at h
  | cons a l ih =>
    rw [List.dropWhile_cons] at h
    by_cases hp : p a
    · simp [hp] at h; exact ih h
    · simp [hp] at h
      rw [← h.1]; simpa using hp

/-- A non-empty stripped string starts with a non-whitespace character. -/
theorem stripChars_head_false (cs : Str) (c : Char) (t : Str)
    (h : stripChars cs = c :: t) : isWsChar c = false := by
  obtain ⟨u, hu⟩ : List.dropWhile isWsChar (List.dropWhile isWsChar cs).reverse <:+
      (List.dropWhile isWsChar cs).reverse := List.dropWhile_suffix isWsChar
  have hz : List.dropWhile isWsChar (List.dropWhile isWsChar cs).reverse = (c :: t).reverse := by
    have := congrArg List.reverse h
    unfold stripChars at this
    simpa using this
  rw [hz] at hu
  have hy : List.dropWhile isWsChar cs = (c :: t) ++ u.reverse := by
    have := congrArg List.reverse hu
    simpa using this.symm
  exact dropWhile_head_false isWsChar cs c (t ++ u.reverse) (by simpa using hy)

/-- A non-empty stripped string ends with a non-whitespace character. -/
theorem stripChars_last_false (cs : Str) (c : Char)
    (h : (stripChars cs).getLast? = some c) : isWsChar c = false := by
  rw [← List.head?_reverse] at h
  unfold stripChars at h
  rw [List.reverse_reverse] at h
  cases hd : List.dropWhile isWsChar (List.dropWhile isWsChar cs).reverse with
  | nil => rw [hd] at h; simp at h
  | cons a t =>
    rw [hd] at h
    simp only [List.head?_cons, Option.some.injEq] at h
    rw [← h]
    exact dropWhile_head_false isWsChar (List.dropWhile isWsChar cs).reverse a t hd

/-- `strip` of a string whose ends are not whitespace is the string itself. -/
theorem stripChars_eq_self (l : Str)
    (h1 : ∀ c, l.head? = some c → isWsChar c = false)
    (h2 : ∀ c, l.getLast? = some c → isWsChar c = false) : stripChars l = l := by
  unfold stripChars
  have hfront : l.dropWhile isWsChar = l := by
    cases l with
    | nil => simp
    | cons a t =>
      have := h1 a (by simp)
      simp [List.dropWhile_cons, this]
  rw [hfront]
  have hback : l.reverse.dropWhile isWsChar = l.reverse := by
    cases hr : l.reverse with
    | nil => simp
    | cons a t =>
      have ha : l.getLast? = some a := by
        rw [← List.head?_reverse, hr]; simp
      have := h2 a ha
      simp [List.dropWhile_cons, this]
  rw [hback, List.reverse_reverse]

/-- Stripping is idempotent. -/
theorem stripChars_idem (cs : Str) : stripChars (stripChars cs) = stripChars cs := by
  apply stripChars_eq_self
  · intro c hc
    cases hs : stripChars cs with
    | nil => rw [hs] at hc; simp at hc
    | cons a t =>
      rw [hs] at hc
      simp only [List.head?_cons, Option.some.injEq] at hc
      subst hc
      exact stripChars_head_false cs a t hs
  · intro c hc
    exact stripChars_last_false cs c hc

/-! ### Lemmas about the `str.split` model -/

theorem splitGo_nil (f : Nat) (sep acc : Str) : splitGo (f + 1) sep [] acc = [acc.reverse] := rfl

theorem splitGo_cons_pos (f : Nat) (sep : Str) (c : Char) (rest acc : Str)
    (h : sep ≠ [] ∧ sep.isPrefixOf (c :: rest) = true) :
    splitGo (f + 1) sep (c :: rest) acc =
      acc.reverse :: splitGo f sep (List.drop sep.length (c :: rest)) [] := by
  simp only [splitGo]
  rw [if_pos h]

theorem splitGo_cons_neg (f : Nat) (sep : Str) (c : Char) (rest acc : Str)
    (h : ¬(sep ≠ [] ∧ sep.isPrefixOf (c :: rest) = true)) :
    splitGo (f + 1) sep (c :: rest) acc = splitGo f sep rest (c :: acc) := by
  simp only [splitGo]
  rw [if_neg h]

theorem splitGo_fuel_irrel (sep : Str) :
    ∀ (n : Nat) (cs : Str), cs.length ≤ n → ∀ (f1 f2 : Nat) (acc : Str),
      cs.length < f1 → cs.length < f2 → splitGo f1 sep cs acc = splitGo f2 sep cs acc := by
  intro n
  induction n with
  | zero =>
    intro cs hlen f1 f2 acc h1 h2
    have hcs : cs = [] := List.eq_nil_of_length_eq_zero (Nat.le_zero.mp hlen)
    subst hcs
    match f1, f2, h1, h2 with
    | g1 + 1, g2 + 1, _, _ => rw [splitGo_nil, splitGo_nil]
  | succ n ih =>
    intro cs hlen f1 f2 acc h1 h2
    match cs, f1, f2, h1, h2 with
    | [], g1 + 1, g2 + 1, _, _ => rw [splitGo_nil, splitGo_nil]
    | c :: rest, g1 + 1, g2 + 1, h1, h2 =>
      have hrn : rest.length ≤ n := by simp only [List.length_cons] at hlen; omega
      simp only [List.length_cons] at h1 h2
      by_cases hcond : sep ≠ [] ∧ sep.isPrefixOf (c :: rest) = true
      · rw [splitGo_cons_pos g1 sep c rest acc hcond, splitGo_cons_pos g2 sep c rest acc hcond]
        have hsep1 : 1 ≤ sep.length := by
          cases hs : sep with
          | nil => exact absurd hs hcond.1
          | cons a t => simp
        have hdlen : (List.drop sep.length (c :: rest)).length ≤ rest.length := by
          simp only [List.length_drop, List.length_cons]
          omega
        rw [ih (List.drop sep.length (c :: rest)) (le_trans hdlen hrn) g1 g2 []
          (by omega) (by omega)]
      · rw [splitGo_cons_neg g1 sep c rest acc hcond, splitGo_cons_neg g2 sep c rest acc hcond]
        exact ih rest hrn g1 g2 (c :: acc) (by omega) (by omega)

theorem headQ_append_left (l₁ l₂ : Str) (h : l₁ ≠ []) : (l₁ ++ l₂).head? = l₁.head? := by
  cases l₁ with
  | nil => exact absurd rfl h
  | cons a t => simp

theorem splitGo_occ (sep : Str) (hhead : sep.head? = some btick) :
    ∀ (pre : Str), btick ∉ pre → ∀ (post acc : Str) (f : Nat),
      (pre ++ sep ++ post).length < f →
      splitGo f sep (pre ++ sep ++ post) acc =
        (acc.reverse ++ pre) :: splitGo (post.length + 1) sep post [] := by
  have hsepne : sep ≠ [] := by
    intro hni; rw [hni] at hhead; simp at hhead
  intro pre
  induction pre with
  | nil =>
    intro _ post acc f hf
    simp only [List.nil_append, List.append_nil] at hf ⊢
    obtain ⟨b, s', hbs⟩ : ∃ b s', sep = b :: s' := by
      cases hs : sep with
      | nil => exact absurd hs hsepne
      | cons b s' => exact ⟨b, s', rfl⟩
    match f, hf with
    | g + 1, hf =>
      have hpref : sep.isPrefixOf (sep ++ post) = true := by
        rw [isPrefixOf_iff_ex]; exact ⟨post, rfl⟩
      have hshape : sep ++ post = b :: (s' ++ post) := by rw [hbs]; simp
      rw [hshape, splitGo_cons_pos g sep b (s' ++ post) acc
        ⟨hsepne, by rw [← hshape]; exact hpref⟩]
      congr 1
      have hdrop : List.drop sep.length (b :: (s' ++ post)) = post := by
        rw [← hshape]
        exact List.drop_left sep post
      rw [hdrop]
      apply splitGo_fuel_irrel sep post.length post le_rfl
      · rw [hshape] at hf
        simp only [List.length_cons, List.length_append] at hf
        omega
      · omega
  | cons a pre' ih =>
    intro hmem post acc f hf
    have hmem' : btick ∉ pre' := fun hc => hmem (List.mem_cons_of_mem a hc)
    have hane : a ≠ btick := fun hc => hmem (by rw [hc]; exact List.mem_cons_self btick pre')
    match f, hf with
    | g + 1, hf =>
      have hcond : ¬(sep ≠ [] ∧ sep.isPrefixOf (a :: (pre' ++ sep ++ post)) = true) := by
        rintro ⟨-, hp⟩
        rw [isPrefixOf_iff_ex] at hp
        rcases hp with ⟨t, ht⟩
        obtain ⟨b, s', hbs⟩ : ∃ b s', sep = b :: s' := by
          cases hs : sep with
          | nil => exact absurd hs hsepne
          | cons b s' => exact ⟨b, s', rfl⟩
        rw [hbs] at ht hhead
        simp only [List.head?_cons, Option.some.injEq] at hhead
        simp only [List.cons_append, List.cons.injEq] at ht
        exact hane (ht.1.trans hhead)
      have hshape : (a :: pre') ++ sep ++ post = a :: (pre' ++ sep ++ post) := by simp
      rw [hshape, splitGo_cons_neg g sep a (pre' ++ sep ++ post) acc hcond]
      rw [ih hmem' post (a :: acc) g (by
        rw [hshape] at hf
        simp only [List.length_cons] at hf
        omega)]
      simp

theorem splitGo_noocc (sep : Str) :
    ∀ (cs : Str), (∀ pre post, cs ≠ pre ++ sep ++ post) → ∀ (acc : Str) (f : Nat),
      cs.length < f → splitGo f sep cs acc = [acc.reverse ++ cs] := by
  intro cs
  induction cs with
  | nil =>
    intro _ acc f hf
    match f, hf with
    | g + 1, _ => simp [splitGo_nil]
  | cons c rest ih =>
    intro hno acc f hf
    match f, hf with
    | g + 1, hf =>
      have hcond : ¬(sep ≠ [] ∧ sep.isPrefixOf (c :: rest) = true) := by
        rintro ⟨-, hp⟩
        rw [isPrefixOf_iff_ex] at hp
        rcases hp with ⟨t, ht⟩
        exact hno [] t (by simpa using ht)
      rw [splitGo_cons_neg g sep c rest acc hcond]
      have hno' : ∀ pre post, rest ≠ pre ++ sep ++ post := by
        intro pre post hc
        exact hno (c :: pre) post (by simp [hc])
      rw [ih hno' (c :: acc) g (by simp only [List.length_cons] at hf; omega)]
      simp

theorem splitOnL_occ (sep pre post : Str) (hhead : sep.head? = some btick)
    (hpre : btick ∉ pre) :
    splitOnL sep (pre ++ sep ++ post) = pre :: splitOnL sep post := by
  unfold splitOnL
  rw [splitGo_occ sep hhead pre hpre post [] ((pre ++ sep ++ post).length + 1) (by omega)]
  simp

theorem splitOnL_noocc (sep cs : Str)
    (h : ∀ pre post, cs ≠ pre ++ sep ++ post) : splitOnL sep cs = [cs] := by
  unfold splitOnL
  rw [splitGo_noocc sep cs h [] (cs.length + 1) (by omega)]
  simp

/-- An occurrence of a separator containing a backtick forces a backtick. -/
theorem no_occ_of_no_tick (sep cs : Str) (hsep : btick ∈ sep) (h : btick ∉ cs) :
    ∀ pre post, cs ≠ pre ++ sep ++ post := by
  intro pre post heq
  apply h
  rw [heq]
  exact List.mem_append.mpr (Or.inl (List.mem_append.mpr (Or.inr hsep)))

/-- `"```json"` does not occur in `inner ++ "```"` when `inner` has no
backtick: the closing fence is too short to contain it, and any earlier
occurrence would put a backtick inside `inner`. -/
theorem fenceJson_no_occ_closing (inner : Str) (hin : btick ∉ inner) :
    ∀ pre post, inner ++ fenceMark ≠ pre ++ fenceJson ++ post := by
  intro pre post heq
  have hlen := congrArg List.length heq
  simp only [List.length_append] at hlen
  have hfm : fenceMark.length = 3 := by decide
  have hfj : fenceJson.length = 7 := by decide
  rw [hfm, hfj] at hlen
  by_cases hle : pre.length ≤ inner.length
  · have hdrop := congrArg (List.drop pre.length) heq
    rw [List.drop_append_of_le_length hle] at hdrop
    rw [List.append_assoc, List.drop_left] at hdrop
    cases hd : inner.drop pre.length with
    | nil =>
      rw [hd] at hdrop
      have := congrArg List.length hdrop
      simp only [List.nil_append, List.length_append] at this
      rw [hfm, hfj] at this
      omega
    | cons d ds =>
      rw [hd] at hdrop
      have hdh := congrArg List.head? hdrop
      rw [headQ_append_left (d :: ds) fenceMark (by simp)] at hdh
      rw [headQ_append_left fenceJson post (by decide)] at hdh
      have hfjh : fenceJson.head? = some btick := by decide
      rw [hfjh] at hdh
      simp only [List.head?_cons, Option.some.injEq] at hdh
      apply hin
      have : d ∈ inner.drop pre.length := by rw [hd]; exact List.mem_cons_self d ds
      rw [hdh] at this
      exact List.mem_of_mem_drop this
  · omega

/-! ### Shape of successful parses -/

theorem getLastQ_cons (a : Char) (l : Str) (c : Char) (h : l.getLast? = some c) :
    (a :: l).getLast? = some c := by
  have hne : l ≠ [] := by intro h0; rw [h0] at h; simp at h
  rw [show (a :: l) = [a] ++ l by simp, getLastQ_append_right [a] l hne, h]

theorem getLastQ_of_ne_nil (l : Str) (h : l ≠ []) : ∃ c, l.getLast? = some c := by
  cases hl : l.getLast? with
  | some c => exact ⟨c, rfl⟩
  | none =>
    rw [← List.head?_reverse] at hl
    cases hr : l.reverse with
    | nil => exact absurd (by simpa using congrArg List.reverse hr) h
    | cons a t => rw [hr] at hl; simp at hl

/-- What `parseStrBody` consumes ends with the closing quote. -/
theorem parseStrBody_shape (cs : Str) : ∀ s r, parseStrBody cs = some (s, r) →
    ∃ mid, cs = mid ++ r ∧ mid.getLast? = some '"' := by
  induction cs with
  | nil => intro s r h; simp [parseStrBody] at h
  | cons c rest ih =>
    intro s r h
    simp only [parseStrBody] at h
    by_cases hc : c = '"'
    · rw [if_pos hc] at h
      simp only [Option.some.injEq, Prod.mk.injEq] at h
      refine ⟨[c], by simp [h.2], by simp [hc]⟩
    · rw [if_neg hc] at h
      cases hsb : parseStrBody rest with
      | none => rw [hsb] at h; simp at h
      | some pr =>
        obtain ⟨s', r'⟩ := pr
        rw [hsb] at h
        simp only [Option.some.injEq, Prod.mk.injEq] at h
        obtain ⟨midS, hm1, hm2⟩ := ih s' r' hsb
        refine ⟨c :: midS, ?_, getLastQ_cons c midS '"' hm2⟩
        rw [← h.2, hm1]
        simp

/-- `takeDigits` consumes a prefix of digits. -/
theorem takeDigits_shape (cs : Str) : ∀ ds r, takeDigits cs = (ds, r) →
    cs = ds ++ r ∧ ∀ c ∈ ds, c.isDigit = true := by
  induction cs with
  | nil =>
    intro ds r h
    simp only [takeDigits, Prod.mk.injEq] at h
    simp [← h.1, ← h.2]
  | cons c rest ih =>
    intro ds r h
    simp only [takeDigits] at h
    by_cases hc : c.isDigit
    · rw [if_pos hc] at h
      cases htd : takeDigits rest with
      | mk ds' r' =>
        rw [htd] at h
        simp only [Prod.mk.injEq] at h
        obtain ⟨h1, h2⟩ := ih ds' r' htd
        constructor
        · rw [← h.1, ← h.2]
          simp [h1]
        · intro x hx
          rw [← h.1] at hx
          rcases List.mem_cons.mp hx with hx | hx
          · rw [hx]; exact hc
          · exact h2 x hx
    · rw [if_neg hc] at h
      simp only [Prod.mk.injEq] at h
      simp [← h.1, ← h.2]

theorem isCloser_of_digit (c : Char) (h : c.isDigit = true) : isCloser c = true := by
  simp [isCloser, h]

theorem isOpener_of_digit (c : Char) (h : c.isDigit = true) : isOpener c = true := by
  simp [isOpener, h]

/-- A non-empty string starts where its head is. -/
def headIn (p : Char → Bool) (l : Str) : Prop := ∃ c t, l = c :: t ∧ p c = true

/-- A non-empty string ends in a character satisfying `p`. -/
def lastIn (p : Char → Bool) (l : Str) : Prop := ∃ c, l.getLast? = some c ∧ p c = true

theorem ws_decomp (x : Str) : x = x.takeWhile isWsChar ++ skipWs x := by
  unfold skipWs
  exact (List.takeWhile_append_dropWhile isWsChar x).symm

/-- What a successful parse consumes (after leading whitespace) is non-empty,
starts with a value opener and ends with a value closer; array / object
helpers consume up to their closing bracket / brace. -/
theorem parse_shape (fuel : Nat) :
    (∀ cs v rest, parseVal fuel cs = some (v, rest) →
      ∃ mid, skipWs cs = mid ++ rest ∧ headIn isOpener mid ∧ lastIn isCloser mid) ∧
    (∀ cs acc v rest, parseElems fuel cs acc = some (v, rest) →
      ∃ mid, cs = mid ++ rest ∧ mid.getLast? = some ']') ∧
    (∀ cs acc v rest, parseMembers fuel cs acc = some (v, rest) →
      ∃ mid, cs = mid ++ rest ∧ mid.getLast? = some '}') := by
  induction fuel with
  | zero =>
    refine ⟨?_, ?_, ?_⟩
    · intro cs v rest h; simp [parseVal] at h
    · intro cs acc v rest h; simp [parseElems] at h
    · intro cs acc v rest h; simp [parseMembers] at h
  | succ f ih =>
    obtain ⟨ihV, ihE, ihM⟩ := ih
    refine ⟨?_, ?_, ?_⟩
    · -- parseVal
      intro cs v rest h
      simp only [parseVal] at h
      split at h
      · simp at h
      rename_i c rest0 hsk
      split at h
      · -- c = '{'
        rename_i hc
        subst hc
        split at h
        · -- empty object
          rename_i r2 heq2
          simp only [Option.some.injEq, Prod.mk.injEq] at h
          obtain ⟨hv, hr⟩ := h
          subst hv; subst hr
          refine ⟨'{' :: (rest0.takeWhile isWsChar ++ ['}']), ?_, ⟨'{', _, rfl, by decide⟩,
            ⟨'}', getLastQ_cons '{' _ '}' (List.getLast?_concat _), by decide⟩⟩
          rw [hsk]
          conv_lhs => rw [ws_decomp rest0]
          rw [heq2]
          simp
        · -- members
          obtain ⟨midM, hm1, hm2⟩ := ihM rest0 [] v rest h
          refine ⟨'{' :: midM, ?_, ⟨'{', _, rfl, by decide⟩,
            ⟨'}', getLastQ_cons '{' _ '}' hm2, by decide⟩⟩
          rw [hsk, hm1]
          simp
      split at h
      · -- c = '['
        rename_i hc
        subst hc
        split at h
        · -- empty array
          rename_i r2 heq2
          simp only [Option.some.injEq, Prod.mk.injEq] at h
          obtain ⟨hv, hr⟩ := h
          subst hv; subst hr
          refine ⟨'[' :: (rest0.takeWhile isWsChar ++ [']']), ?_, ⟨'[', _, rfl, by decide⟩,
            ⟨']', getLastQ_cons '[' _ ']' (List.getLast?_concat _), by decide⟩⟩
          rw [hsk]
          conv_lhs => rw [ws_decomp rest0]
          rw [heq2]
          simp
        · -- elements
          obtain ⟨midE, hm1, hm2⟩ := ihE rest0 [] v rest h
          refine ⟨'[' :: midE, ?_, ⟨'[', _, rfl, by decide⟩,
            ⟨']', getLastQ_cons '[' _ ']' hm2, by decide⟩⟩
          rw [hsk, hm1]
          simp
      split at h
      · -- c = '"'
        rename_i hc
        subst hc
        split at h
        · -- string body found
          rename_i s r heqS
          simp only [Option.some.injEq, Prod.mk.injEq] at h
          obtain ⟨hv, hr⟩ := h
          subst hv; subst hr
          obtain ⟨midS, hs1, hs2⟩ := parseStrBody_shape rest0 s r heqS
          refine ⟨'"' :: midS, ?_, ⟨'"', _, rfl, by decide⟩,
            ⟨'"', getLastQ_cons '"' _ '"' hs2, by decide⟩⟩
          rw [hsk, hs1]
          simp
        · simp at h
      split at h
      · -- c = 't'
        rename_i hc
        subst hc
        split at h
        · -- "true"
          rename_i r
          simp only [Option.some.injEq, Prod.mk.injEq] at h
          obtain ⟨hv, hr⟩ := h
          subst hv; subst hr
          refine ⟨['t', 'r', 'u', 'e'], ?_, ⟨'t', _, rfl, by decide⟩, ⟨'e', by decide, by decide⟩⟩
          rw [hsk]
          simp
        · simp at h
      split at h
      · -- c = 'f'
        rename_i hc
        subst hc
        split at h
        · -- "false"
          rename_i r
          simp only [Option.some.injEq, Prod.mk.injEq] at h
          obtain ⟨hv, hr⟩ := h
          subst hv; subst hr
          refine ⟨['f', 'a', 'l', 's', 'e'], ?_, ⟨'f', _, rfl, by decide⟩,
            ⟨'e', by decide, by decide⟩⟩
          rw [hsk]
          simp
        · simp at h
      split at h
      · -- c = 'n'
        rename_i hc
        subst hc
        split at h
        · -- "null"
          rename_i r
          simp only [Option.some.injEq, Prod.mk.injEq] at h
          obtain ⟨hv, hr⟩ := h
          subst hv; subst hr
          refine ⟨['n', 'u', 'l', 'l'], ?_, ⟨'n', _, rfl, by decide⟩, ⟨'l', by decide, by decide⟩⟩
          rw [hsk]
          simp
        · simp at h
      split at h
      · -- c = '-'
        rename_i hc
        subst hc
        split at h
        · simp at h
        · -- digits found
          rename_i d ds r heqD
          simp only [Option.some.injEq, Prod.mk.injEq] at h
          obtain ⟨hv, hr⟩ := h
          subst hv; subst hr
          obtain ⟨hd1, hd2⟩ := takeDigits_shape rest0 (d :: ds) r heqD
          obtain ⟨cl, hcl⟩ := getLastQ_of_ne_nil (d :: ds) (by simp)
          refine ⟨'-' :: d :: ds, ?_, ⟨'-', _, rfl, by decide⟩,
            ⟨cl, getLastQ_cons '-' _ cl hcl,
              isCloser_of_digit cl (hd2 cl (getLastQ_mem _ cl hcl))⟩⟩
          rw [hsk, hd1]
          simp
      split at h
      · -- leading digit
        rename_i hdig
        split at h
        · simp at h
        · -- digits found
          rename_i d ds r heqD
          simp only [Option.some.injEq, Prod.mk.injEq] at h
          obtain ⟨hv, hr⟩ := h
          subst hv; subst hr
          obtain ⟨hd1, hd2⟩ := takeDigits_shape (c :: rest0) (d :: ds) r heqD
          obtain ⟨cl, hcl⟩ := getLastQ_of_ne_nil (d :: ds) (by simp)
          refine ⟨d :: ds, ?_, ⟨d, ds, rfl, isOpener_of_digit d (hd2 d (by simp))⟩,
            ⟨cl, hcl, isCloser_of_digit cl (hd2 cl (getLastQ_mem _ cl hcl))⟩⟩
          rw [hsk, hd1]
      · simp at h
    · -- parseElems
      intro cs acc v rest h
      simp only [parseElems] at h
      split at h
      · rename_i v1 r1 heqV
        obtain ⟨mid1, hv1, _, _⟩ := ihV cs v1 r1 heqV
        split at h
        · -- comma, continue
          rename_i r2 heq2
          obtain ⟨mid2, he1, he2⟩ := ihE r2 (v1 :: acc) v rest h
          refine ⟨(cs.takeWhile isWsChar ++ mid1 ++ r1.takeWhile isWsChar) ++ (',' :: mid2),
            ?_, ?_⟩
          · conv_lhs => rw [ws_decomp cs]
            rw [hv1]
            conv_lhs => rw [ws_decomp r1]
            rw [heq2, he1]
            simp
          · rw [getLastQ_append_right _ (',' :: mid2) (by simp)]
            exact getLastQ_cons ',' mid2 ']' he2
        · -- closing bracket
          rename_i r2 heq2
          simp only [Option.some.injEq, Prod.mk.injEq] at h
          obtain ⟨hv, hr⟩ := h
          subst hv; subst hr
          refine ⟨(cs.takeWhile isWsChar ++ mid1 ++ r1.takeWhile isWsChar) ++ [']'],
            ?_, List.getLast?_concat _⟩
          conv_lhs => rw [ws_decomp cs]
          rw [hv1]
          conv_lhs => rw [ws_decomp r1]
          rw [heq2]
          simp
        · simp at h
      · simp at h
    · -- parseMembers
      intro cs acc v rest h
      simp only [parseMembers] at h
      split at h
      case _ r hskq =>
        split at h
        · rename_i k r1 heqS
          obtain ⟨midS, hs1, hs2⟩ := parseStrBody_shape r k r1 heqS
          split at h
          case _ r2 heq1 =>
            split at h
            · rename_i v1 r3 heqV
              obtain ⟨midV, hv1, _, _⟩ := ihV r2 v1 r3 heqV
              split at h
              · -- comma, continue
                rename_i r4 heq3
                obtain ⟨mid2, hm1, hm2⟩ := ihM r4 ((k, v1) :: acc) v rest h
                refine ⟨(cs.takeWhile isWsChar ++ '"' :: (midS ++ r1.takeWhile isWsChar ++
                  ':' :: (r2.takeWhile isWsChar ++ midV ++ r3.takeWhile isWsChar))) ++
                  (',' :: mid2), ?_, ?_⟩
                · conv_lhs => rw [ws_decomp cs]
                  rw [hskq]
                  conv_lhs => rw [hs1]
                  conv_lhs => rw [ws_decomp r1]
                  conv_lhs => rw [heq1]
                  conv_lhs => rw [ws_decomp r2]
                  conv_lhs => rw [hv1]
                  conv_lhs => rw [ws_decomp r3]
                  conv_lhs => rw [heq3]
                  conv_lhs => rw [hm1]
                  simp
                · rw [getLastQ_append_right _ (',' :: mid2) (by simp)]
                  exact getLastQ_cons ',' mid2 '}' hm2
              · -- closing brace
                rename_i r4 heq3
                simp only [Option.some.injEq, Prod.mk.injEq] at h
                obtain ⟨hv, hr⟩ := h
                subst hv; subst hr
                refine ⟨(cs.takeWhile isWsChar ++ '"' :: (midS ++ r1.takeWhile isWsChar ++
                  ':' :: (r2.takeWhile isWsChar ++ midV ++ r3.takeWhile isWsChar))) ++ ['}'],
                  ?_, List.getLast?_concat _⟩
                conv_lhs => rw [ws_decomp cs]
                rw [hskq]
                conv_lhs => rw [hs1]
                conv_lhs => rw [ws_decomp r1]
                conv_lhs => rw [heq1]
                conv_lhs => rw [ws_decomp r2]
                conv_lhs => rw [hv1]
                conv_lhs => rw [ws_decomp r3]
                conv_lhs => rw [heq3]
                simp
              · simp at h
            · simp at h
          case _ => simp at h
        · simp at h
      case _ => simp at h

/-- Successful `parseJson` input decomposes as whitespace, a value text with
opener/closer ends, and trailing whitespace. -/
theorem parseJson_shape (cs : Str) (v : Json) (h : parseJson cs = some v) :
    ∃ mid rest, skipWs cs = mid ++ rest ∧ headIn isOpener mid ∧ lastIn isCloser mid ∧
      ∀ x ∈ rest, isWsChar x = true := by
  unfold parseJson at h
  split at h
  · rename_i v0 rest0 heqV
    split at h
    · rename_i hws
      simp only [Option.some.injEq] at h
      subst h
      obtain ⟨mid, hm1, hm2, hm3⟩ := (parse_shape (cs.length + 1)).1 cs v0 rest0 heqV
      refine ⟨mid, rest0, hm1, hm2, hm3, ?_⟩
      unfold skipWs at hws
      exact fun x hx => List.dropWhile_eq_nil_iff.mp hws x hx
    · simp at h
  · simp at h

/-- If the stripped response parses as JSON, the markdown-fence repair does
not fire, so the text handed to `json.loads` is exactly the stripped
response. -/
theorem parse_strip_clean (t : Str) (v : Json) (h : parseJson (stripChars t) = some v) :
    cleanResponse t = stripChars t := by
  obtain ⟨mid, rest, hm1, ⟨c0, t0, hmc, hop⟩, ⟨cl, hlast, hcl⟩, hrest⟩ :=
    parseJson_shape (stripChars t) v h
  have hskip : skipWs (stripChars t) = stripChars t := by
    cases hu : stripChars t with
    | nil => simp [skipWs]
    | cons a u0 =>
      have hna := stripChars_head_false t a u0 hu
      unfold skipWs
      simp [List.dropWhile_cons, hna]
  rw [hskip] at hm1
  have hrnil : rest = [] := by
    by_contra hne
    obtain ⟨cr, hcr⟩ := getLastQ_of_ne_nil rest hne
    have hlastu : (stripChars t).getLast? = some cr := by
      rw [hm1]
      exact (getLastQ_append_right mid rest hne).trans hcr
    have hfalse := stripChars_last_false t cr hlastu
    have hws := hrest cr (getLastQ_mem rest cr hcr)
    rw [hfalse] at hws
    exact Bool.noConfusion hws
  rw [hrnil, List.append_nil] at hm1
  have hp : fenceJson.isPrefixOf (stripChars t) = false := by
    by_contra hb
    have hb' : fenceJson.isPrefixOf (stripChars t) = true := by
      revert hb
      cases fenceJson.isPrefixOf (stripChars t) <;> simp
    rw [isPrefixOf_iff_ex] at hb'
    obtain ⟨tail, htail⟩ := hb'
    rw [hm1, hmc] at htail
    have hfh : (fenceJson ++ tail).head? = some btick := by
      rw [headQ_append_left fenceJson tail (by decide)]
      decide
    have h1 := congrArg List.head? htail
    rw [hfh] at h1
    simp only [List.head?_cons, Option.some.injEq] at h1
    rw [h1] at hop
    exact Bool.noConfusion ((by decide : isOpener btick = false) ▸ hop)
  have hsuf : fenceMark.isSuffixOf (stripChars t) = false := by
    by_contra hb
    have hb' : fenceMark.isSuffixOf (stripChars t) = true := by
      revert hb
      cases fenceMark.isSuffixOf (stripChars t) <;> simp
    rw [isSuffixOf_iff_ex] at hb'
    obtain ⟨p, hpeq⟩ := hb'
    rw [hm1] at hpeq
    have hlast2 : mid.getLast? = some btick := by
      rw [hpeq, getLastQ_append_right p fenceMark (by decide)]
      decide
    rw [hlast2] at hlast
    simp only [Option.some.injEq] at hlast
    rw [← hlast] at hcl
    exact Bool.noConfusion ((by decide : isCloser btick = false) ▸ hcl)
  unfold cleanResponse stripFences
  simp only [hp, hsuf, Bool.false_eq_true, if_false]
  exact stripChars_idem t

/-- If the stripped response parses as JSON, the code's cleaning pipeline
hands `json.loads` a text parsing to the same value. -/
theorem parse_clean_of_parse_strip (t : Str) (v : Json)
    (h : parseJson (stripChars t) = some v) : parseJson (cleanResponse t) = some v := by
  rw [parse_strip_clean t v h]
  exact h

/-! ### One-step equations for the retry loop -/

theorem sgLoop_success (post : Nat → Payload → PostOutcome) (m fp sp : Str)
    (maxA r : Nat) (lastR : Option Str) (t : Str) (v : Json)
    (hgen : (generate (post (maxA - (r + 1))) m fp (some sp) defaultTemperature
      defaultMaxTokens).res = .ok t)
    (hparse : parseJson (cleanResponse t) = some v) :
    sgLoop post m fp sp maxA (r + 1) lastR =
      { outcome := .ok v,
        trace := [mkPayload m fp (some sp) defaultTemperature defaultMaxTokens],
        prints := (generate (post (maxA - (r + 1))) m fp (some sp) defaultTemperature
          defaultMaxTokens).log } := by
  simp only [sgLoop, hgen, hparse]

theorem sgLoop_fail_step (post : Nat → Payload → PostOutcome) (m fp sp : Str)
    (maxA r' : Nat) (lastR : Option Str) (t : Str)
    (hgen : (generate (post (maxA - (r' + 2))) m fp (some sp) defaultTemperature
      defaultMaxTokens).res = .ok t)
    (hparse : parseJson (cleanResponse t) = none) :
    sgLoop post m fp sp maxA (r' + 2) lastR =
      { outcome := (sgLoop post m fp sp maxA (r' + 1) (some t)).outcome,
        trace := mkPayload m fp (some sp) defaultTemperature defaultMaxTokens ::
          (sgLoop post m fp sp maxA (r' + 1) (some t)).trace,
        prints := (generate (post (maxA - (r' + 2))) m fp (some sp) defaultTemperature
          defaultMaxTokens).log ++ .retryMsg (maxA - (r' + 2)) ::
          (sgLoop post m fp sp maxA (r' + 1) (some t)).prints } := by
  simp only [sgLoop, hgen, hparse]
  simp

theorem sgLoop_fail_final (post : Nat → Payload → PostOutcome) (m fp sp : Str)
    (maxA : Nat) (lastR : Option Str) (t : Str)
    (hgen : (generate (post (maxA - 1)) m fp (some sp) defaultTemperature
      defaultMaxTokens).res = .ok t)
    (hparse : parseJson (cleanResponse t) = none) :
    sgLoop post m fp sp maxA 1 lastR =
      { outcome := .raised (.jsonError (cleanResponse t)),
        trace := [mkPayload m fp (some sp) defaultTemperature defaultMaxTokens],
        prints := (generate (post (maxA - 1)) m fp (some sp) defaultTemperature
          defaultMaxTokens).log ++
          [.failedParseMsg maxA (cleanResponse t), .rawResponseMsg (some t)] } := by
  simp only [sgLoop, hgen, hparse]
  simp

theorem sgLoop_raise (post : Nat → Payload → PostOutcome) (m fp sp : Str)
    (maxA r : Nat) (lastR : Option Str) (e : PyExn)
    (hgen : (generate (post (maxA - (r + 1))) m fp (some sp) defaultTemperature
      defaultMaxTokens).res = .error e)
    (hexn : isJsonDecodeExn e = false) :
    sgLoop post m fp sp maxA (r + 1) lastR =
      { outcome := .raised e,
        trace := [mkPayload m fp (some sp) defaultTemperature defaultMaxTokens],
        prints := (generate (post (maxA - (r + 1))) m fp (some sp) defaultTemperature
          defaultMaxTokens).log } := by
  simp only [sgLoop, hgen, hexn]
  simp

theorem sgLoop_caught_step (post : Nat → Payload → PostOutcome) (m fp sp : Str)
    (maxA r' : Nat) (lastR : Option Str) (e : PyExn)
    (hgen : (generate (post (maxA - (r' + 2))) m fp (some sp) defaultTemperature
      defaultMaxTokens).res = .error e)
    (hexn : isJsonDecodeExn e = true) :
    sgLoop post m fp sp maxA (r' + 2) lastR =
      { outcome := (sgLoop post m fp sp maxA (r' + 1) lastR).outcome,
        trace := mkPayload m fp (some sp) defaultTemperature defaultMaxTokens ::
          (sgLoop post m fp sp maxA (r' + 1) lastR).trace,
        prints := (generate (post (maxA - (r' + 2))) m fp (some sp) defaultTemperature
          defaultMaxTokens).log ++ .retryMsg (maxA - (r' + 2)) ::
          (sgLoop post m fp sp maxA (r' + 1) lastR).prints } := by
  simp only [sgLoop, hgen, hexn]
  simp

theorem sgLoop_caught_final (post : Nat → Payload → PostOutcome) (m fp sp : Str)
    (maxA : Nat) (lastR : Option Str) (e : PyExn)
    (hgen : (generate (post (maxA - 1)) m fp (some sp) defaultTemperature
      defaultMaxTokens).res = .error e)
    (hexn : isJsonDecodeExn e = true) :
    sgLoop post m fp sp maxA 1 lastR =
      { outcome := .raised e,
        trace := [mkPayload m fp (some sp) defaultTemperature defaultMaxTokens],
        prints := (generate (post (maxA - 1)) m fp (some sp) defaultTemperature
          defaultMaxTokens).log ++ [.failedParseMsg maxA [], .rawResponseMsg lastR] } := by
  simp only [sgLoop, hgen, hexn]
  simp

/-! ### Behaviour of `structured_generation` runs -/

/-- If the first attempt's text parses (modulo surrounding whitespace, which
`json.loads` ignores), the call returns that value after one transport call. -/
theorem sg_first_ok (post : Nat → Payload → PostOutcome) (model prompt : Str)
    (fmt : Json) (sys : Option Str) (maxA : Nat) (t : Str) (v : Json)
    (hA : 1 ≤ maxA)
    (hgen : genAt post model prompt fmt sys 0 = .ok t)
    (hparse : parseJson (stripChars t) = some v) :
    (structuredGeneration post model prompt fmt sys maxA).outcome = .ok v ∧
    (structuredGeneration post model prompt fmt sys maxA).trace =
      [sgPayload model prompt fmt sys] := by
  obtain ⟨r, rfl⟩ : ∃ r, maxA = r + 1 := ⟨maxA - 1, by omega⟩
  have hg : (generate (post ((r + 1) - (r + 1))) model (sgFullPrompt prompt fmt)
      (some (sys.getD defaultSystemPrompt)) defaultTemperature defaultMaxTokens).res = .ok t := by
    rw [Nat.sub_self]
    exact hgen
  have hs := sgLoop_success post model (sgFullPrompt prompt fmt) (sys.getD defaultSystemPrompt)
    (r + 1) r none t v hg (parse_clean_of_parse_strip t v hparse)
  unfold structuredGeneration
  rw [hs]
  exact ⟨rfl, rfl⟩

/-- C1: for every prompt and schema descriptor, if the first transport
attempt returns text that parses as valid JSON, `structured_generation`
returns exactly that parsed value and posts exactly one payload (no further
attempts occur).  "Parses as valid JSON" is stated on the stripped text,
which is equivalent for `json.loads` since it ignores surrounding
whitespace. -/
theorem C1_first_valid_json_one_call (post : Nat → Payload → PostOutcome)
    (model prompt : Str) (fmt : Json) (sys : Option Str) (maxA : Nat) (t : Str) (v : Json)
    (hA : 1 ≤ maxA)
    (hgen : genAt post model prompt fmt sys 0 = .ok t)
    (hparse : parseJson (stripChars t) = some v) :
    (structuredGeneration post model prompt fmt sys maxA).outcome = .ok v ∧
    (structuredGeneration post model prompt fmt sys maxA).trace =
      [sgPayload model prompt fmt sys] :=
  sg_first_ok post model prompt fmt sys maxA t v hA hgen hparse

/-- Witness for C1: a transport returning `{"a": 1}` on every call. -/
theorem C1_witness :
    (1 : Nat) ≤ 3 ∧
    genAt (fun _ _ => PostOutcome.resp 200 (some (.obj [(("response").toList,
        .str ("\x7b\"a\": 1\x7d").toList)])))
      ("m").toList ("p").toList (.obj []) none 0 = .ok (("\x7b\"a\": 1\x7d").toList) ∧
    parseJson (stripChars (("\x7b\"a\": 1\x7d").toList)) = some (.obj [(("a").toList, .num 1)]) ∧
    (structuredGeneration (fun _ _ => PostOutcome.resp 200 (some (.obj [(("response").toList,
        .str ("\x7b\"a\": 1\x7d").toList)])))
      ("m").toList ("p").toList (.obj []) none 3).outcome =
        .ok (.obj [(("a").toList, .num 1)]) ∧
    (structuredGeneration (fun _ _ => PostOutcome.resp 200 (some (.obj [(("response").toList,
        .str ("\x7b\"a\": 1\x7d").toList)])))
      ("m").toList ("p").toList (.obj []) none 3).trace =
        [sgPayload ("m").toList ("p").toList (.obj []) none] := by
  have h := C1_first_valid_json_one_call
    (fun _ _ => PostOutcome.resp 200 (some (.obj [(("response").toList,
      .str ("\x7b\"a\": 1\x7d").toList)])))
    ("m").toList ("p").toList (.obj []) none 3 (("\x7b\"a\": 1\x7d").toList)
    (.obj [(("a").toList, .num 1)]) (by omega) rfl rfl
  exact ⟨by omega, rfl, rfl, h.1, h.2⟩

/-- C10: when the cleaned response parses to a JSON value that is not an
object (array, number, string, boolean or null), `structured_generation`
returns that value as-is as a success with no rejection or retry — the
declared mapping result type is not enforced. -/
theorem C10_non_mapping_returned (post : Nat → Payload → PostOutcome)
    (model prompt : Str) (fmt : Json) (sys : Option Str) (maxA : Nat) (t : Str) (v : Json)
    (hA : 1 ≤ maxA)
    (hgen : genAt post model prompt fmt sys 0 = .ok t)
    (hparse : parseJson (stripChars t) = some v)
    (hnm : ∀ kvs, v ≠ Json.obj kvs) :
    (structuredGeneration post model prompt fmt sys maxA).outcome = .ok v ∧
    (structuredGeneration post model prompt fmt sys maxA).trace =
      [sgPayload model prompt fmt sys] :=
  sg_first_ok post model prompt fmt sys maxA t v hA hgen hparse

/-- Witness for C10: the transport returns the JSON array `[1, 2]`. -/
theorem C10_witness :
    (1 : Nat) ≤ 3 ∧
    genAt (fun _ _ => PostOutcome.resp 200 (some (.obj [(("response").toList,
        .str ("[1, 2]").toList)])))
      ("m").toList ("p").toList (.obj []) none 0 = .ok (("[1, 2]").toList) ∧
    parseJson (stripChars (("[1, 2]").toList)) = some (.arr [.num 1, .num 2]) ∧
    (structuredGeneration (fun _ _ => PostOutcome.resp 200 (some (.obj [(("response").toList,
        .str ("[1, 2]").toList)])))
      ("m").toList ("p").toList (.obj []) none 3).outcome = .ok (.arr [.num 1, .num 2]) := by
  have h := C10_non_mapping_returned
    (fun _ _ => PostOutcome.resp 200 (some (.obj [(("response").toList,
      .str ("[1, 2]").toList)])))
    ("m").toList ("p").toList (.obj []) none 3 (("[1, 2]").toList)
    (.arr [.num 1, .num 2]) (by omega) rfl rfl (fun kvs hk => Json.noConfusion hk)
  exact ⟨by omega, rfl, rfl, h.1⟩

/-- The fence repair on a well-formed fenced block extracts the inner text. -/
theorem stripFences_fenced (inner : Str) (hin : btick ∉ inner) :
    stripFences (fenceJson ++ inner ++ fenceMark) = inner := by
  unfold stripFences
  have hpf : fenceJson.isPrefixOf (fenceJson ++ inner ++ fenceMark) = true := by
    rw [isPrefixOf_iff_ex]
    exact ⟨inner ++ fenceMark, by simp⟩
  have hsplit1 : splitOnL fenceJson (fenceJson ++ inner ++ fenceMark) =
      [[], inner ++ fenceMark] := by
    have h0 := splitOnL_occ fenceJson [] (inner ++ fenceMark) (by decide) (by simp)
    have h1 : ([] : Str) ++ fenceJson ++ (inner ++ fenceMark) =
        fenceJson ++ inner ++ fenceMark := by simp
    rw [h1] at h0
    rw [h0, splitOnL_noocc fenceJson (inner ++ fenceMark)
      (fenceJson_no_occ_closing inner hin)]
  have hsuf : fenceMark.isSuffixOf (inner ++ fenceMark) = true := by
    rw [isSuffixOf_iff_ex]
    exact ⟨inner, rfl⟩
  have hsplit2 : splitOnL fenceMark (inner ++ fenceMark) = [inner, []] := by
    have h0 := splitOnL_occ fenceMark inner [] (by decide) hin
    have h1 : inner ++ fenceMark ++ [] = inner ++ fenceMark := by simp
    rw [h1] at h0
    rw [h0]
    rfl
  simp only []
  rw [if_pos hpf, hsplit1]
  have hg1 : ([[], inner ++ fenceMark] : List Str).getD 1 [] = inner ++ fenceMark := rfl
  rw [hg1, if_pos hsuf, hsplit2]
  rfl

/-- When the opening fence marker occurs twice, the repair keeps exactly the
segment between the first marker and the second (Python `split(sep)[1]`). -/
theorem stripFences_two_markers (a b : Str) (ha : btick ∉ a) (hb : btick ∉ b) :
    stripFences (fenceJson ++ a ++ fenceJson ++ b) = a := by
  unfold stripFences
  have hpf : fenceJson.isPrefixOf (fenceJson ++ a ++ fenceJson ++ b) = true := by
    rw [isPrefixOf_iff_ex]
    exact ⟨a ++ fenceJson ++ b, by simp⟩
  have hsplit : splitOnL fenceJson (fenceJson ++ a ++ fenceJson ++ b) =
      [[], a, b] := by
    have h0 := splitOnL_occ fenceJson [] (a ++ fenceJson ++ b) (by decide) (by simp)
    have h1 : ([] : Str) ++ fenceJson ++ (a ++ fenceJson ++ b) =
        fenceJson ++ a ++ fenceJson ++ b := by simp
    rw [h1] at h0
    rw [h0, splitOnL_occ fenceJson a b (by decide) ha,
      splitOnL_noocc fenceJson b (no_occ_of_no_tick fenceJson b (by decide) hb)]
  have hsuf : fenceMark.isSuffixOf a = false := by
    cases hx : fenceMark.isSuffixOf a with
    | false => rfl
    | true =>
      rw [isSuffixOf_iff_ex] at hx
      obtain ⟨p, hp⟩ := hx
      exfalso
      apply ha
      rw [hp]
      exact List.mem_append.mpr (Or.inr (by decide))
  simp only []
  rw [if_pos hpf, hsplit]
  have hg1 : ([[], a, b] : List Str).getD 1 [] = a := rfl
  rw [hg1]
  have hns : ¬(fenceMark.isSuffixOf a = true) := by
    rw [hsuf]
    simp
  rw [if_neg hns]

/-- Putting the inner text back through `strip` and the whole cleaning
pipeline. -/
theorem cleanResponse_fenced (inner : Str) (hin : btick ∉ inner) :
    cleanResponse (fenceJson ++ inner ++ fenceMark) = stripChars inner := by
  unfold cleanResponse
  have hfne : fenceJson ++ inner ≠ [] := by
    intro h
    have := congrArg List.length h
    have h7 : fenceJson.length = 7 := by decide
    simp only [List.length_append, List.length_nil] at this
    omega
  have hstrip : stripChars (fenceJson ++ inner ++ fenceMark) =
      fenceJson ++ inner ++ fenceMark := by
    apply stripChars_eq_self
    · intro c hc
      rw [headQ_append_left (fenceJson ++ inner) fenceMark hfne,
        headQ_append_left fenceJson inner (by decide)] at hc
      have hfh : fenceJson.head? = some btick := by decide
      rw [hfh] at hc
      simp only [Option.some.injEq] at hc
      rw [← hc]
      decide
    · intro c hc
      rw [getLastQ_append_right (fenceJson ++ inner) fenceMark (by decide)] at hc
      have hfl : fenceMark.getLast? = some btick := by decide
      rw [hfl] at hc
      simp only [Option.some.injEq] at hc
      rw [← hc]
      decide
  rw [hstrip, stripFences_fenced inner hin]

/-- C2: a response wrapped in a JSON markdown fence is unwrapped before
parsing, and the returned value equals parsing the inner content directly
(stated for inner content without backticks, the well-formed fenced case);
moreover, when the opening fence marker appears more than once, the repair
splits on the marker and keeps the first remainder segment. -/
theorem C2_fence_stripped (post : Nat → Payload → PostOutcome)
    (model prompt : Str) (fmt : Json) (sys : Option Str) (maxA : Nat) (inner : Str) (v : Json)
    (hA : 1 ≤ maxA)
    (hin : btick ∉ inner)
    (hgen : genAt post model prompt fmt sys 0 = .ok (fenceJson ++ inner ++ fenceMark))
    (hparse : parseJson (stripChars inner) = some v) :
    ((structuredGeneration post model prompt fmt sys maxA).outcome = .ok v ∧
     (structuredGeneration post model prompt fmt sys maxA).trace =
       [sgPayload model prompt fmt sys]) ∧
    (∀ a b : Str, btick ∉ a → btick ∉ b →
      stripFences (fenceJson ++ a ++ fenceJson ++ b) = a) := by
  constructor
  · obtain ⟨r, rfl⟩ : ∃ r, maxA = r + 1 := ⟨maxA - 1, by omega⟩
    have hg : (generate (post ((r + 1) - (r + 1))) model (sgFullPrompt prompt fmt)
        (some (sys.getD defaultSystemPrompt)) defaultTemperature defaultMaxTokens).res =
        .ok (fenceJson ++ inner ++ fenceMark) := by
      rw [Nat.sub_self]
      exact hgen
    have hp : parseJson (cleanResponse (fenceJson ++ inner ++ fenceMark)) = some v := by
      rw [cleanResponse_fenced inner hin]
      exact hparse
    have hs := sgLoop_success post model (sgFullPrompt prompt fmt)
      (sys.getD defaultSystemPrompt) (r + 1) r none (fenceJson ++ inner ++ fenceMark) v hg hp
    unfold structuredGeneration
    rw [hs]
    exact ⟨rfl, rfl⟩
  · intro a b ha hb
    exact stripFences_two_markers a b ha hb

/-- Witness for C2: the spec's own example scenario, fenced
`{"severity": "high", "message": "unsafe cast"}`. -/
theorem C2_witness :
    (1 : Nat) ≤ 3 ∧
    btick ∉ ("\n\x7b\"severity\": \"high\", \"message\": \"unsafe cast\"\x7d\n").toList ∧
    genAt (fun _ _ => PostOutcome.resp 200 (some (.obj [(("response").toList,
        .str ("```json\n\x7b\"severity\": \"high\", \"message\": \"unsafe cast\"\x7d\n```").toList)])))
      ("classify this snippet").toList ("p").toList (.obj []) none 0 =
      .ok (fenceJson ++ ("\n\x7b\"severity\": \"high\", \"message\": \"unsafe cast\"\x7d\n").toList ++
        fenceMark) ∧
    (structuredGeneration (fun _ _ => PostOutcome.resp 200 (some (.obj [(("response").toList,
        .str ("```json\n\x7b\"severity\": \"high\", \"message\": \"unsafe cast\"\x7d\n```").toList)])))
      ("classify this snippet").toList ("p").toList (.obj []) none 3).outcome =
      .ok (.obj [(("severity").toList, .str ("high").toList),
        (("message").toList, .str ("unsafe cast").toList)]) := by
  have h := C2_fence_stripped
    (fun _ _ => PostOutcome.resp 200 (some (.obj [(("response").toList,
      .str ("```json\n\x7b\"severity\": \"high\", \"message\": \"unsafe cast\"\x7d\n```").toList)])))
    ("classify this snippet").toList ("p").toList (.obj []) none 3
    (("\n\x7b\"severity\": \"high\", \"message\": \"unsafe cast\"\x7d\n").toList)
    (.obj [(("severity").toList, .str ("high").toList),
      (("message").toList, .str ("unsafe cast").toList)])
    (by omega) (by decide) rfl rfl
  exact ⟨by omega, by decide, rfl, h.1.1⟩

/-- When every remaining attempt's text fails to parse, the loop raises the
final attempt's JSON decode error, posts one payload per remaining attempt,
and prints the final raw response. -/
theorem sgLoop_all_fail (post : Nat → Payload → PostOutcome) (m fp sp : Str)
    (maxA : Nat) (ts : Nat → Str) :
    ∀ r, 1 ≤ r → r ≤ maxA →
    (∀ i, maxA - r ≤ i → i < maxA →
      (generate (post i) m fp (some sp) defaultTemperature defaultMaxTokens).res =
        .ok (ts i) ∧ parseJson (cleanResponse (ts i)) = none) →
    ∀ lastR,
      (sgLoop post m fp sp maxA r lastR).outcome =
        .raised (.jsonError (cleanResponse (ts (maxA - 1)))) ∧
      (sgLoop post m fp sp maxA r lastR).trace =
        List.replicate r (mkPayload m fp (some sp) defaultTemperature defaultMaxTokens) ∧
      .rawResponseMsg (some (ts (maxA - 1))) ∈ (sgLoop post m fp sp maxA r lastR).prints := by
  intro r
  induction r with
  | zero => intro h1; exact absurd h1 (by omega)
  | succ r' ih =>
    intro h1 hle hall lastR
    cases r' with
    | zero =>
      have hi := hall (maxA - 1) (by omega) (by omega)
      rw [sgLoop_fail_final post m fp sp maxA lastR (ts (maxA - 1)) hi.1 hi.2]
      exact ⟨rfl, by simp, by simp⟩
    | succ r'' =>
      have hi := hall (maxA - (r'' + 2)) (by omega) (by omega)
      rw [sgLoop_fail_step post m fp sp maxA r'' lastR (ts (maxA - (r'' + 2))) hi.1 hi.2]
      have hrec := ih (by omega) (by omega)
        (fun i hi1 hi2 => hall i (by omega) hi2) (some (ts (maxA - (r'' + 2))))
      refine ⟨hrec.1, ?_, ?_⟩
      · rw [List.replicate_succ, hrec.2.1]
      · simp only [List.mem_append, List.mem_cons]
        right
        right
        exact hrec.2.2

/-- C3: if every attempt's response fails to parse as JSON, the call raises a
JSON decode error carrying the final attempt's cleaned text, with exactly
`max_attempts` transport calls made, and the diagnostics print the final
attempt's raw response. -/
theorem C3_all_attempts_fail (post : Nat → Payload → PostOutcome)
    (model prompt : Str) (fmt : Json) (sys : Option Str) (maxA : Nat) (ts : Nat → Str)
    (hA : 1 ≤ maxA)
    (hall : ∀ i, i < maxA → genAt post model prompt fmt sys i = .ok (ts i) ∧
      parseJson (cleanResponse (ts i)) = none) :
    (structuredGeneration post model prompt fmt sys maxA).outcome =
      .raised (.jsonError (cleanResponse (ts (maxA - 1)))) ∧
    (structuredGeneration post model prompt fmt sys maxA).trace.length = maxA ∧
    .rawResponseMsg (some (ts (maxA - 1))) ∈
      (structuredGeneration post model prompt fmt sys maxA).prints := by
  have h := sgLoop_all_fail post model (sgFullPrompt prompt fmt) (sys.getD defaultSystemPrompt)
    maxA ts maxA hA le_rfl (fun i _ hi2 => hall i hi2) none
  unfold structuredGeneration
  refine ⟨h.1, ?_, h.2.2⟩
  rw [h.2.1, List.length_replicate]

/-- Witness for C3: every attempt returns the unparseable text `oops`,
`max_attempts = 2`. -/
theorem C3_witness :
    (1 : Nat) ≤ 2 ∧
    genAt (fun _ _ => PostOutcome.resp 200 (some (.obj [(("response").toList,
        .str ("oops").toList)])))
      ("m").toList ("p").toList (.obj []) none 0 = .ok (("oops").toList) ∧
    parseJson (cleanResponse (("oops").toList)) = none ∧
    (structuredGeneration (fun _ _ => PostOutcome.resp 200 (some (.obj [(("response").toList,
        .str ("oops").toList)])))
      ("m").toList ("p").toList (.obj []) none 2).outcome =
      .raised (.jsonError (cleanResponse (("oops").toList))) ∧
    (structuredGeneration (fun _ _ => PostOutcome.resp 200 (some (.obj [(("response").toList,
        .str ("oops").toList)])))
      ("m").toList ("p").toList (.obj []) none 2).trace.length = 2 := by
  have h := C3_all_attempts_fail
    (fun _ _ => PostOutcome.resp 200 (some (.obj [(("response").toList,
      .str ("oops").toList)])))
    ("m").toList ("p").toList (.obj []) none 2 (fun _ => ("oops").toList)
    (by omega) (fun i _ => ⟨rfl, rfl⟩)
  exact ⟨by omega, rfl, rfl, h.1, h.2.1⟩

/-- C5: with `max_attempts = 3`, parse failures on attempts 1 and 2 and a
parse success on attempt 3 yield exactly three transport calls, all posting
the identical combined prompt and system prompt, and the third attempt's
parsed value is returned. -/
theorem C5_success_on_third (post : Nat → Payload → PostOutcome)
    (model prompt : Str) (fmt : Json) (sys : Option Str) (t0 t1 t2 : Str) (v : Json)
    (h0 : genAt post model prompt fmt sys 0 = .ok t0)
    (h0p : parseJson (cleanResponse t0) = none)
    (h1 : genAt post model prompt fmt sys 1 = .ok t1)
    (h1p : parseJson (cleanResponse t1) = none)
    (h2 : genAt post model prompt fmt sys 2 = .ok t2)
    (h2p : parseJson (stripChars t2) = some v) :
    (structuredGeneration post model prompt fmt sys 3).outcome = .ok v ∧
    (structuredGeneration post model prompt fmt sys 3).trace =
      [sgPayload model prompt fmt sys, sgPayload model prompt fmt sys,
       sgPayload model prompt fmt sys] := by
  have s3 : sgLoop post model (sgFullPrompt prompt fmt) (sys.getD defaultSystemPrompt)
      3 3 none =
      { outcome := (sgLoop post model (sgFullPrompt prompt fmt)
          (sys.getD defaultSystemPrompt) 3 2 (some t0)).outcome,
        trace := sgPayload model prompt fmt sys ::
          (sgLoop post model (sgFullPrompt prompt fmt)
            (sys.getD defaultSystemPrompt) 3 2 (some t0)).trace,
        prints := (generate (post 0) model (sgFullPrompt prompt fmt)
            (some (sys.getD defaultSystemPrompt)) defaultTemperature defaultMaxTokens).log ++
          .retryMsg 0 :: (sgLoop post model (sgFullPrompt prompt fmt)
            (sys.getD defaultSystemPrompt) 3 2 (some t0)).prints } :=
    sgLoop_fail_step post model (sgFullPrompt prompt fmt) (sys.getD defaultSystemPrompt)
      3 1 none t0 h0 h0p
  have s2 : sgLoop post model (sgFullPrompt prompt fmt) (sys.getD defaultSystemPrompt)
      3 2 (some t0) =
      { outcome := (sgLoop post model (sgFullPrompt prompt fmt)
          (sys.getD defaultSystemPrompt) 3 1 (some t1)).outcome,
        trace := sgPayload model prompt fmt sys ::
          (sgLoop post model (sgFullPrompt prompt fmt)
            (sys.getD defaultSystemPrompt) 3 1 (some t1)).trace,
        prints := (generate (post 1) model (sgFullPrompt prompt fmt)
            (some (sys.getD defaultSystemPrompt)) defaultTemperature defaultMaxTokens).log ++
          .retryMsg 1 :: (sgLoop post model (sgFullPrompt prompt fmt)
            (sys.getD defaultSystemPrompt) 3 1 (some t1)).prints } :=
    sgLoop_fail_step post model (sgFullPrompt prompt fmt) (sys.getD defaultSystemPrompt)
      3 0 (some t0) t1 h1 h1p
  have s1 : sgLoop post model (sgFullPrompt prompt fmt) (sys.getD defaultSystemPrompt)
      3 1 (some t1) =
      { outcome := .ok v,
        trace := [sgPayload model prompt fmt sys],
        prints := (generate (post 2) model (sgFullPrompt prompt fmt)
            (some (sys.getD defaultSystemPrompt)) defaultTemperature defaultMaxTokens).log } :=
    sgLoop_success post model (sgFullPrompt prompt fmt) (sys.getD defaultSystemPrompt)
      3 0 (some t1) t2 v h2 (parse_clean_of_parse_strip t2 v h2p)
  unfold structuredGeneration
  rw [s3, s2, s1]
  exact ⟨rfl, rfl⟩

/-- Witness for C5: two `oops` responses, then `{"a": 1}`. -/
theorem C5_witness :
    genAt (fun i _ => if i < 2 then PostOutcome.resp 200 (some (.obj [(("response").toList,
        .str ("oops").toList)]))
      else PostOutcome.resp 200 (some (.obj [(("response").toList,
        .str ("\x7b\"a\": 1\x7d").toList)])))
      ("m").toList ("p").toList (.obj []) none 0 = .ok (("oops").toList) ∧
    genAt (fun i _ => if i < 2 then PostOutcome.resp 200 (some (.obj [(("response").toList,
        .str ("oops").toList)]))
      else PostOutcome.resp 200 (some (.obj [(("response").toList,
        .str ("\x7b\"a\": 1\x7d").toList)])))
      ("m").toList ("p").toList (.obj []) none 2 = .ok (("\x7b\"a\": 1\x7d").toList) ∧
    parseJson (cleanResponse (("oops").toList)) = none ∧
    (structuredGeneration (fun i _ => if i < 2 then PostOutcome.resp 200
        (some (.obj [(("response").toList, .str ("oops").toList)]))
      else PostOutcome.resp 200 (some (.obj [(("response").toList,
        .str ("\x7b\"a\": 1\x7d").toList)])))
      ("m").toList ("p").toList (.obj []) none 3).outcome =
      .ok (.obj [(("a").toList, .num 1)]) ∧
    (structuredGeneration (fun i _ => if i < 2 then PostOutcome.resp 200
        (some (.obj [(("response").toList, .str ("oops").toList)]))
      else PostOutcome.resp 200 (some (.obj [(("response").toList,
        .str ("\x7b\"a\": 1\x7d").toList)])))
      ("m").toList ("p").toList (.obj []) none 3).trace =
      [sgPayload ("m").toList ("p").toList (.obj []) none,
       sgPayload ("m").toList ("p").toList (.obj []) none,
       sgPayload ("m").toList ("p").toList (.obj []) none] := by
  have h := C5_success_on_third
    (fun i _ => if i < 2 then PostOutcome.resp 200
        (some (.obj [(("response").toList, .str ("oops").toList)]))
      else PostOutcome.resp 200 (some (.obj [(("response").toList,
        .str ("\x7b\"a\": 1\x7d").toList)])))
    ("m").toList ("p").toList (.obj []) none
    ("oops").toList ("oops").toList ("\x7b\"a\": 1\x7d").toList
    (.obj [(("a").toList, .num 1)])
    rfl rfl rfl rfl rfl rfl
  exact ⟨rfl, rfl, rfl, h.1, h.2⟩

/-- Transport failures of `generate`: a `RequestException` during the post or
a 4xx/5xx status (which `raise_for_status` turns into `HTTPError`) surface as
the re-raised `RequestException`. -/
theorem generate_transport_error (p1 : Payload → PostOutcome) (m pr : Str)
    (sysp : Option Str) (temp : ℚ) (mt : Nat)
    (h : p1 (mkPayload m pr sysp temp mt) = .exn ∨
      ∃ s b, p1 (mkPayload m pr sysp temp mt) = .resp s b ∧ 400 ≤ s ∧ s < 600) :
    (generate p1 m pr sysp temp mt).res = .error .reqExn := by
  simp only [generate]
  rcases h with h | ⟨s, b, h, hs1, hs2⟩
  · simp [h]
  · simp only [h]
    rw [if_pos ⟨hs1, hs2⟩]

/-- If attempts before `k` fail to parse and attempt `k` raises an exception
not caught by `except json.JSONDecodeError`, the loop re-raises it after
exactly `k - (maxA - r) + 1` further transport calls. -/
theorem sgLoop_raise_mid (post : Nat → Payload → PostOutcome) (m fp sp : Str)
    (maxA k : Nat) (e : PyExn) (hexn : isJsonDecodeExn e = false) (ts : Nat → Str) :
    ∀ r, r ≤ maxA → maxA - r ≤ k → k < maxA →
    (∀ i, maxA - r ≤ i → i < k →
      (generate (post i) m fp (some sp) defaultTemperature defaultMaxTokens).res =
        .ok (ts i) ∧ parseJson (cleanResponse (ts i)) = none) →
    (generate (post k) m fp (some sp) defaultTemperature defaultMaxTokens).res = .error e →
    ∀ lastR, (sgLoop post m fp sp maxA r lastR).outcome = .raised e ∧
      (sgLoop post m fp sp maxA r lastR).trace.length = k - (maxA - r) + 1 := by
  intro r
  induction r with
  | zero =>
    intro _ h2 h3 _ _ _
    exact absurd h3 (by omega)
  | succ r' ih =>
    intro h1 h2 h3 hall hraise lastR
    by_cases hk : k = maxA - (r' + 1)
    · subst hk
      rw [sgLoop_raise post m fp sp maxA r' lastR e hraise hexn]
      refine ⟨rfl, ?_⟩
      simp only [List.length_cons, List.length_nil]
      omega
    · cases r' with
      | zero => exact absurd (by omega : k = maxA - 1) hk
      | succ r'' =>
        have hfail := hall (maxA - (r'' + 2)) (by omega) (by omega)
        rw [sgLoop_fail_step post m fp sp maxA r'' lastR (ts (maxA - (r'' + 2)))
          hfail.1 hfail.2]
        have hrec := ih (by omega) (by omega) h3
          (fun i hi1 hi2 => hall i (by omega) hi2) hraise (some (ts (maxA - (r'' + 2))))
        refine ⟨hrec.1, ?_⟩
        simp only [List.length_cons]
        rw [hrec.2]
        omega

/-- C4 counterexample: the claim counts every non-2xx status as a transport
failure, but `raise_for_status` raises only on 4xx/5xx.  A 303 response with
a parseable body makes `structured_generation` succeed instead of failing
with a transport error. -/
theorem C4_counterexample :
    (structuredGeneration (fun _ _ => PostOutcome.resp 303 (some (.obj [(("response").toList,
        .str ("\x7b\x7d").toList)])))
      ("m").toList ("p").toList (.obj []) none 1).outcome = .ok (.obj []) ∧
    (structuredGeneration (fun _ _ => PostOutcome.resp 303 (some (.obj [(("response").toList,
        .str ("\x7b\x7d").toList)])))
      ("m").toList ("p").toList (.obj []) none 1).trace.length = 1 :=
  ⟨rfl, rfl⟩

/-- C4 (amended): a transport-level failure in `generate` — a connection
error, or a 4xx/5xx status — on any attempt makes the whole
`structured_generation` call fail immediately with the transport error: it
propagates, the loop terminates, and no further transport calls occur. -/
theorem C4_transport_error_propagates (post : Nat → Payload → PostOutcome)
    (model prompt : Str) (fmt : Json) (sys : Option Str) (maxA k : Nat) (ts : Nat → Str)
    (hk : k < maxA)
    (hprev : ∀ i, i < k → genAt post model prompt fmt sys i = .ok (ts i) ∧
      parseJson (cleanResponse (ts i)) = none)
    (htr : post k (sgPayload model prompt fmt sys) = .exn ∨
      ∃ s b, post k (sgPayload model prompt fmt sys) = .resp s b ∧ 400 ≤ s ∧ s < 600) :
    (structuredGeneration post model prompt fmt sys maxA).outcome = .raised .reqExn ∧
    (structuredGeneration post model prompt fmt sys maxA).trace.length = k + 1 := by
  have hgen : (generate (post k) model (sgFullPrompt prompt fmt)
      (some (sys.getD defaultSystemPrompt)) defaultTemperature defaultMaxTokens).res =
      .error .reqExn :=
    generate_transport_error (post k) model (sgFullPrompt prompt fmt)
      (some (sys.getD defaultSystemPrompt)) defaultTemperature defaultMaxTokens htr
  have h := sgLoop_raise_mid post model (sgFullPrompt prompt fmt)
    (sys.getD defaultSystemPrompt) maxA k .reqExn rfl ts maxA le_rfl (by omega) hk
    (fun i _ hi2 => hprev i hi2) hgen none
  unfold structuredGeneration
  refine ⟨h.1, ?_⟩
  rw [h.2]
  omega

/-- Witness for C4 (amended): a parse failure on attempt 1, then a connection
failure on attempt 2 with `max_attempts = 3`; two calls total. -/
theorem C4_witness :
    (1 : Nat) < 3 ∧
    genAt (fun i _ => if i = 0 then PostOutcome.resp 200 (some (.obj [(("response").toList,
        .str ("oops").toList)])) else PostOutcome.exn)
      ("m").toList ("p").toList (.obj []) none 0 = .ok (("oops").toList) ∧
    ((fun (i : Nat) (_ : Payload) => if i = 0 then PostOutcome.resp 200
        (some (.obj [(("response").toList, .str ("oops").toList)])) else PostOutcome.exn) 1
      (sgPayload ("m").toList ("p").toList (.obj []) none) = PostOutcome.exn) ∧
    (structuredGeneration (fun i _ => if i = 0 then PostOutcome.resp 200
        (some (.obj [(("response").toList, .str ("oops").toList)])) else PostOutcome.exn)
      ("m").toList ("p").toList (.obj []) none 3).outcome = .raised .reqExn ∧
    (structuredGeneration (fun i _ => if i = 0 then PostOutcome.resp 200
        (some (.obj [(("response").toList, .str ("oops").toList)])) else PostOutcome.exn)
      ("m").toList ("p").toList (.obj []) none 3).trace.length = 2 := by
  have h := C4_transport_error_propagates
    (fun i _ => if i = 0 then PostOutcome.resp 200
      (some (.obj [(("response").toList, .str ("oops").toList)])) else PostOutcome.exn)
    ("m").toList ("p").toList (.obj []) none 3 1 (fun _ => ("oops").toList)
    (by omega) (fun i hi => by interval_cases i <;> exact ⟨rfl, rfl⟩) (Or.inl rfl)
  exact ⟨by omega, rfl, rfl, h.1, h.2⟩

/-- The loop never falls through when at least one attempt remains, and a
returned value is always the full parse of some attempt's cleaned text. -/
theorem sgLoop_totality (post : Nat → Payload → PostOutcome) (m fp sp : Str) (maxA : Nat) :
    ∀ r lastR, 1 ≤ r → r ≤ maxA →
    (sgLoop post m fp sp maxA r lastR).outcome ≠ .noneReturn ∧
    (∀ v, (sgLoop post m fp sp maxA r lastR).outcome = .ok v →
      ∃ i t, i < maxA ∧
        (generate (post i) m fp (some sp) defaultTemperature defaultMaxTokens).res = .ok t ∧
        parseJson (cleanResponse t) = some v) := by
  intro r
  induction r with
  | zero => intro lastR h1 _; exact absurd h1 (by omega)
  | succ r' ih =>
    intro lastR _ hle
    cases hgen : (generate (post (maxA - (r' + 1))) m fp (some sp) defaultTemperature
        defaultMaxTokens).res with
    | ok t =>
      cases hparse : parseJson (cleanResponse t) with
      | some v0 =>
        rw [sgLoop_success post m fp sp maxA r' lastR t v0 hgen hparse]
        refine ⟨by simp, ?_⟩
        intro v hv
        have hv0 : v0 = v := by simpa using hv
        exact ⟨maxA - (r' + 1), t, by omega, hgen, hv0 ▸ hparse⟩
      | none =>
        cases r' with
        | zero =>
          rw [sgLoop_fail_final post m fp sp maxA lastR t hgen hparse]
          exact ⟨by simp, fun v hv => absurd hv (by simp)⟩
        | succ r'' =>
          rw [sgLoop_fail_step post m fp sp maxA r'' lastR t hgen hparse]
          have hrec := ih (some t) (by omega) (by omega)
          exact ⟨hrec.1, fun v hv => hrec.2 v hv⟩
    | error e =>
      cases hexn : isJsonDecodeExn e with
      | false =>
        rw [sgLoop_raise post m fp sp maxA r' lastR e hgen hexn]
        exact ⟨by simp, fun v hv => absurd hv (by simp)⟩
      | true =>
        cases r' with
        | zero =>
          rw [sgLoop_caught_final post m fp sp maxA lastR e hgen hexn]
          exact ⟨by simp, fun v hv => absurd hv (by simp)⟩
        | succ r'' =>
          rw [sgLoop_caught_step post m fp sp maxA r'' lastR e hgen hexn]
          have hrec := ih lastR (by omega) (by omega)
          exact ⟨hrec.1, fun v hv => hrec.2 v hv⟩

/-- C6 counterexample: when the endpoint returns the text `null`, the call
succeeds and returns JSON null — in Python, `structured_generation` returns
`None` on this success path, contradicting "never returns a null result on
success". -/
theorem C6_counterexample :
    (structuredGeneration (fun _ _ => PostOutcome.resp 200 (some (.obj [(("response").toList,
        .str ("null").toList)])))
      ("m").toList ("p").toList (.obj []) none 3).outcome = .ok .null := rfl

/-- C6 (amended): for `max_attempts ≥ 1` the resolver never falls through
without a result, and every successfully returned value is the full parse of
some attempt's cleaned response — no partial parse and no degraded success
mode exist; but the returned value may be JSON null (Python `None`) or a
non-mapping when the response parses to such a value. -/
theorem C6_full_parse_or_raise (post : Nat → Payload → PostOutcome)
    (model prompt : Str) (fmt : Json) (sys : Option Str) (maxA : Nat)
    (hA : 1 ≤ maxA) :
    (structuredGeneration post model prompt fmt sys maxA).outcome ≠ .noneReturn ∧
    ∀ v, (structuredGeneration post model prompt fmt sys maxA).outcome = .ok v →
      ∃ i t, i < maxA ∧ genAt post model prompt fmt sys i = .ok t ∧
        parseJson (cleanResponse t) = some v := by
  have h := sgLoop_totality post model (sgFullPrompt prompt fmt)
    (sys.getD defaultSystemPrompt) maxA maxA none hA le_rfl
  unfold structuredGeneration
  exact h

/-- Witness for C6 (amended) at a concrete transport. -/
theorem C6_witness :
    (1 : Nat) ≤ 3 ∧
    (structuredGeneration (fun _ _ => PostOutcome.resp 200 (some (.obj [(("response").toList,
        .str ("null").toList)])))
      ("m").toList ("p").toList (.obj []) none 3).outcome ≠ .noneReturn :=
  ⟨by omega,
    (C6_full_parse_or_raise (fun _ _ => PostOutcome.resp 200 (some (.obj [(("response").toList,
        .str ("null").toList)])))
      ("m").toList ("p").toList (.obj []) none 3 (by omega)).1⟩

/-- With at least one attempt remaining, the loop always posts at least one
payload. -/
theorem sgLoop_trace_ne_nil (post : Nat → Payload → PostOutcome) (m fp sp : Str)
    (maxA : Nat) : ∀ r lastR, 1 ≤ r →
    1 ≤ (sgLoop post m fp sp maxA r lastR).trace.length := by
  intro r lastR h1
  obtain ⟨r', rfl⟩ : ∃ r', r = r' + 1 := ⟨r - 1, by omega⟩
  cases hgen : (generate (post (maxA - (r' + 1))) m fp (some sp) defaultTemperature
      defaultMaxTokens).res with
  | ok t =>
    cases hparse : parseJson (cleanResponse t) with
    | some v => rw [sgLoop_success post m fp sp maxA r' lastR t v hgen hparse]; simp
    | none =>
      cases r' with
      | zero => rw [sgLoop_fail_final post m fp sp maxA lastR t hgen hparse]; simp
      | succ r'' => rw [sgLoop_fail_step post m fp sp maxA r'' lastR t hgen hparse]; simp
  | error e =>
    cases hexn : isJsonDecodeExn e with
    | false => rw [sgLoop_raise post m fp sp maxA r' lastR e hgen hexn]; simp
    | true =>
      cases r' with
      | zero => rw [sgLoop_caught_final post m fp sp maxA lastR e hgen hexn]; simp
      | succ r'' => rw [sgLoop_caught_step post m fp sp maxA r'' lastR e hgen hexn]; simp

/-- C7: a successful response whose body lacks the `response` field makes
`generate` return the empty string rather than raise; and within
`structured_generation` an empty response text is a parse failure (the empty
string is not valid JSON) that is retried like any other malformed output —
with `max_attempts ≥ 2` a second transport call follows. -/
theorem C7_empty_text_retried (kvs : List (Str × Json))
    (post : Nat → Payload → PostOutcome) (model prompt : Str) (fmt : Json)
    (sys : Option Str) (maxA : Nat)
    (hnof : jget (("response").toList) kvs = none)
    (hA : 2 ≤ maxA)
    (hempty : genAt post model prompt fmt sys 0 = .ok []) :
    (∀ (p1 : Payload → PostOutcome) (m pr : Str) (sysp : Option Str) (temp : ℚ) (mt : Nat),
      p1 (mkPayload m pr sysp temp mt) = .resp 200 (some (.obj kvs)) →
      (generate p1 m pr sysp temp mt).res = .ok []) ∧
    parseJson (cleanResponse []) = none ∧
    2 ≤ (structuredGeneration post model prompt fmt sys maxA).trace.length := by
  refine ⟨?_, rfl, ?_⟩
  · intro p1 m pr sysp temp mt hp
    simp only [generate, hp]
    rw [if_neg (by omega : ¬(400 ≤ 200 ∧ 200 < 600))]
    have hnof2 : jget (['r', 'e', 's', 'p', 'o', 'n', 's', 'e'] : Str) kvs = none := hnof
    simp [hnof2]
  · obtain ⟨r, rfl⟩ : ∃ r, maxA = r + 2 := ⟨maxA - 2, by omega⟩
    have hg : (generate (post ((r + 2) - (r + 2))) model (sgFullPrompt prompt fmt)
        (some (sys.getD defaultSystemPrompt)) defaultTemperature defaultMaxTokens).res =
        .ok [] := by
      rw [Nat.sub_self]
      exact hempty
    unfold structuredGeneration
    rw [sgLoop_fail_step post model (sgFullPrompt prompt fmt) (sys.getD defaultSystemPrompt)
      (r + 2) r none [] hg rfl]
    have hrec := sgLoop_trace_ne_nil post model (sgFullPrompt prompt fmt)
      (sys.getD defaultSystemPrompt) (r + 2) (r + 1) (some ([] : Str)) (by omega)
    simp only [List.length_cons]
    omega

/-- Witness for C7: a body with no `response` field at all, two attempts. -/
theorem C7_witness :
    jget (("response").toList) ([] : List (Str × Json)) = none ∧
    (2 : Nat) ≤ 2 ∧
    genAt (fun _ _ => PostOutcome.resp 200 (some (.obj [])))
      ("m").toList ("p").toList (.obj []) none 0 = .ok [] ∧
    parseJson (cleanResponse []) = none ∧
    2 ≤ (structuredGeneration (fun _ _ => PostOutcome.resp 200 (some (.obj [])))
      ("m").toList ("p").toList (.obj []) none 2).trace.length := by
  have h := C7_empty_text_retried [] (fun _ _ => PostOutcome.resp 200 (some (.obj [])))
    ("m").toList ("p").toList (.obj []) none 2 rfl (by omega) rfl
  exact ⟨rfl, by omega, rfl, h.2.1, h.2.2⟩

/-- C8 counterexample: 204 is a success (2xx) status, yet `is_available`
returns `false`, because the code tests `status_code == 200` rather than any
2xx. -/
theorem C8_counterexample :
    isAvailable (.resp 204 none) = false ∧ 200 ≤ 204 ∧ 204 < 300 :=
  ⟨rfl, by omega, by omega⟩

/-- C8 (amended): `is_available` never raises; it returns `false` on every
transport failure and returns `true` exactly when the probe responds with
status exactly 200, regardless of the response body content. -/
theorem C8_true_iff_status_200 :
    isAvailable .exn = false ∧
    ∀ pr : PostOutcome, isAvailable pr = true ↔ ∃ b, pr = .resp 200 b := by
  refine ⟨rfl, ?_⟩
  intro pr
  cases pr with
  | exn => simp [isAvailable]
  | resp s b =>
    simp only [isAvailable, beq_iff_eq]
    constructor
    · intro h
      exact ⟨b, by rw [h]⟩
    · rintro ⟨b', hb⟩
      injection hb

/-- C9: `list_models` never raises on transport problems — a connection
failure, a 4xx/5xx status, or an unparseable body all yield the empty
sequence — and on a successful response whose body has the documented shape
(a `models` list of descriptor objects each exposing a `name` string) it
returns the name of each descriptor, in order. -/
theorem C9_list_models_names_or_empty :
    listModels .exn = .ok [] ∧
    (∀ s b, 400 ≤ s → s < 600 → listModels (.resp s b) = .ok []) ∧
    (∀ s, ¬(400 ≤ s ∧ s < 600) → listModels (.resp s none) = .ok []) ∧
    (∀ (s : Nat) (kvs : List (Str × Json)) (ds : List Json) (names : List Str),
      200 ≤ s → s < 300 →
      jget (("models").toList) kvs = some (.arr ds) →
      List.Forall₂ (fun d n => ∃ mkvs, d = Json.obj mkvs ∧
        jget (("name").toList) mkvs = some (.str n)) ds names →
      listModels (.resp s (some (.obj kvs))) =
        .ok (names.map (fun n => some (.str n)))) := by
  refine ⟨rfl, ?_, ?_, ?_⟩
  · intro s b h1 h2
    simp only [listModels]
    rw [if_pos ⟨h1, h2⟩]
  · intro s hns
    simp only [listModels]
    rw [if_neg hns]
  · intro s kvs ds names h1 h2 hm hf
    simp only [listModels]
    rw [if_neg (by omega : ¬(400 ≤ s ∧ s < 600))]
    simp only [hm]
    clear hm
    induction hf with
    | nil => rfl
    | @cons d n ds' names' hd htl ihf =>
      obtain ⟨mkvs, rfl, hname⟩ := hd
      simp only [List.mapM_cons, List.map_cons, hname]
      simp only [bind, Except.bind] at ihf ⊢
      rw [ihf]
      rfl

/-- Witness for C9: two model descriptors, the second with an extra field. -/
theorem C9_witness :
    (200 : Nat) ≤ 200 ∧
    jget (("models").toList) [(("models").toList, Json.arr
      [.obj [(("name").toList, .str ("llama").toList)],
       .obj [(("name").toList, .str ("gemma").toList), (("size").toList, .num 7)]])] =
      some (.arr [.obj [(("name").toList, .str ("llama").toList)],
        .obj [(("name").toList, .str ("gemma").toList), (("size").toList, .num 7)]]) ∧
    listModels (.resp 200 (some (.obj [(("models").toList, Json.arr
      [.obj [(("name").toList, .str ("llama").toList)],
       .obj [(("name").toList, .str ("gemma").toList), (("size").toList, .num 7)]])]))) =
      .ok [some (.str ("llama").toList), some (.str ("gemma").toList)] := by
  have h := (C9_list_models_names_or_empty).2.2.2 200
    [(("models").toList, Json.arr
      [.obj [(("name").toList, .str ("llama").toList)],
       .obj [(("name").toList, .str ("gemma").toList), (("size").toList, .num 7)]])]
    [.obj [(("name").toList, .str ("llama").toList)],
     .obj [(("name").toList, .str ("gemma").toList), (("size").toList, .num 7)]]
    [("llama").toList, ("gemma").toList]
    (by omega) (by omega) rfl
    (List.Forall₂.cons ⟨_, rfl, rfl⟩ (List.Forall₂.cons ⟨_, rfl, rfl⟩ List.Forall₂.nil))
  exact ⟨by omega, rfl, h⟩
